import Mathlib

/-!
Shallow embedding of `src/fhirToHl7Service.js` (FHIR to HL7 conversion
service) and proofs about it.

Modelling conventions, used uniformly below:
* A JavaScript object field that may be `undefined` is an `Option`.
* JavaScript string falsiness (`''` and `undefined` are both falsy) is
  captured by `jsTruthy` / `jsOrS`.
* The ambient impurity of the source (`new Date()` in `createMSHSegment`,
  `createEVNSegment` and `convertPatientToPID`, `Math.random()` in
  `createMSHSegment`) is made explicit: every function that reads the
  clock or the random source takes the read value as an argument, and the
  top-level conversion takes a `Clock` record bundling all of them.
* A JavaScript number that is only ever converted with `toString()` is
  modelled by its decimal string rendering.
-/

/-- JS `a || b` for a possibly-undefined string `a` with default `b`:
both `undefined` and `''` fall through to the default. -/
def jsOr (a : Option String) (b : String) : String :=
  match a with
  | some s => if s = "" then b else s
  | none => b

/-- JS `a || b` on two strings (`''` is falsy). -/
def jsOrS (a b : String) : String :=
  if a = "" then b else a

/-- JS truthiness of a possibly-undefined string. -/
def jsTruthy (a : Option String) : Bool :=
  match a with
  | some s => s ≠ ""
  | none => false

/-- Bool-level contiguous-substring test (structural recursion, so that
it computes definitionally). -/
def isInfixB (needle : List Char) : List Char → Bool
  | [] => needle.isEmpty
  | c :: rest => needle.isPrefixOf (c :: rest) || isInfixB needle rest

/-- JS `haystack.includes(needle)`: contiguous substring test, modelled on
the character list. -/
def jsIncludes (s sub : String) : Bool :=
  isInfixB sub.data s.data

/-- Splitting on a non-empty separator (core of JS `split`), with a fuel
argument so the recursion is structural and computes definitionally. -/
def splitOnCore (sep : List Char) : Nat → List Char → List (List Char)
  | 0, l => [l]
  | fuel + 1, l =>
    match l with
    | [] => [[]]
    | c :: rest =>
      if sep.isPrefixOf (c :: rest) then
        [] :: splitOnCore sep fuel (List.drop sep.length (c :: rest))
      else
        match splitOnCore sep fuel rest with
        | [] => [[c]]
        | f :: fs => (c :: f) :: fs

/-- JS `s.split(sep)`. -/
def jsSplit (s sep : String) : List String :=
  if sep = "" then [s]
  else (splitOnCore sep.data (s.data.length + 1) s.data).map String.mk

/-- JS `s.trim()` (ASCII whitespace, as used on date strings). -/
def jsTrim (s : String) : String :=
  String.mk (((s.data.dropWhile Char.isWhitespace).reverse.dropWhile
    Char.isWhitespace).reverse)

/-- JS `s.replace(pat, repl)` with a global (replace-all) pattern. -/
def jsReplaceAll (s pat repl : String) : String :=
  String.intercalate repl (jsSplit s pat)

/-- JS `s.toLowerCase()`. -/
def jsToLower (s : String) : String :=
  String.mk (s.data.map Char.toLower)

/-! ## Data model (FHIR input structures, only the fields the service reads) -/

structure Coding where
  system : Option String := none
  code : Option String := none
  display : Option String := none
deriving Repr, DecidableEq

structure CodeableConcept where
  coding : Option (List Coding) := none
  text : Option String := none
deriving Repr, DecidableEq

/-- FHIR Period; the source reads `period.start` and `period.end`
(`end` is a Lean keyword, embedded here as `stop`). -/
structure Period where
  start : Option String := none
  stop : Option String := none
deriving Repr, DecidableEq

structure Address where
  line : Option (List String) := none
  city : Option String := none
  state : Option String := none
  postalCode : Option String := none
  country : Option String := none
  district : Option String := none
deriving Repr, DecidableEq

/-- FHIR HumanName (`prefix` is a reserved word here, embedded as `prfx`). -/
structure HumanName where
  family : Option String := none
  given : Option (List String) := none
  suffix : Option (List String) := none
  prfx : Option (List String) := none
  use : Option String := none
deriving Repr, DecidableEq

/-- A sub-extension as read by the service: `url`, `valueCoding`,
`valueString` (used for `ombCategory` entries and identifier state). -/
structure SubExt where
  url : Option String := none
  valueCoding : Option Coding := none
  valueString : Option String := none
deriving Repr, DecidableEq

structure FExtension where
  url : Option String := none
  valueString : Option String := none
  valueCodeableConcept : Option CodeableConcept := none
  valueCoding : Option Coding := none
  valueAddress : Option Address := none
  extension : Option (List SubExt) := none
deriving Repr, DecidableEq

structure Identifier where
  use : Option String := none
  value : Option String := none
  system : Option String := none
  type : Option CodeableConcept := none
  period : Option Period := none
  extension : Option (List SubExt) := none
deriving Repr, DecidableEq

structure ContactPoint where
  system : Option String := none
  value : Option String := none
  use : Option String := none
deriving Repr, DecidableEq

structure Communication where
  language : Option CodeableConcept := none
  preferred : Option Bool := none
deriving Repr, DecidableEq

structure PatientMeta where
  lastUpdated : Option String := none
deriving Repr, DecidableEq

structure PatientR where
  identifier : Option (List Identifier) := none
  name : Option (List HumanName) := none
  extension : Option (List FExtension) := none
  birthDate : Option String := none
  gender : Option String := none
  address : Option (List Address) := none
  telecom : Option (List ContactPoint) := none
  communication : Option (List Communication) := none
  maritalStatus : Option CodeableConcept := none
  multipleBirthBoolean : Option Bool := none
  multipleBirthInteger : Option Int := none
  deceasedBoolean : Option Bool := none
  deceasedDateTime : Option String := none
  meta : Option PatientMeta := none
deriving Repr, DecidableEq

structure PractitionerR where
  id : Option String := none
  name : Option (List HumanName) := none
deriving Repr, DecidableEq

/-- `participant.individual`: a reference object. -/
structure IndividualRef where
  reference : Option String := none
deriving Repr, DecidableEq

structure Participant where
  type : Option (List CodeableConcept) := none
  individual : Option IndividualRef := none
deriving Repr, DecidableEq

/-- `encounter.location[k].location` (a reference with display/identifier). -/
structure LocationRef where
  display : Option String := none
  identifier : Option Identifier := none
deriving Repr, DecidableEq

structure EncLocation where
  location : Option LocationRef := none
  status : Option String := none
deriving Repr, DecidableEq

structure Hospitalization where
  admitSource : Option CodeableConcept := none
  preAdmissionIdentifier : Option Identifier := none
  reAdmission : Option CodeableConcept := none
  dischargeDisposition : Option CodeableConcept := none
deriving Repr, DecidableEq

structure ClassHistory where
  cls : Option Coding := none
deriving Repr, DecidableEq

/-- FHIR Encounter (`class` is a Lean keyword, embedded as `cls`). -/
structure EncounterR where
  status : Option String := none
  cls : Option Coding := none
  location : Option (List EncLocation) := none
  hospitalization : Option Hospitalization := none
  identifier : Option (List Identifier) := none
  participant : Option (List Participant) := none
  period : Option Period := none
  type : Option (List CodeableConcept) := none
  classHistory : Option (List ClassHistory) := none
deriving Repr, DecidableEq

structure RelatedPersonR where
  name : Option (List HumanName) := none
  relationship : Option (List CodeableConcept) := none
  address : Option (List Address) := none
  telecom : Option (List ContactPoint) := none
  period : Option Period := none
deriving Repr, DecidableEq

/-- FHIR Quantity; the numeric `value` is modelled by its decimal string
rendering (it is only read through `toString()`). -/
structure Quantity where
  value : Option String := none
  unit : Option String := none
  system : Option String := none
  code : Option String := none
deriving Repr, DecidableEq

structure ObservationR where
  status : Option String := none
  code : Option CodeableConcept := none
  valueQuantity : Option Quantity := none
  valueCodeableConcept : Option CodeableConcept := none
  valueDateTime : Option String := none
  valueDate : Option String := none
  valueTime : Option String := none
  valueString : Option String := none
  valueBoolean : Option Bool := none
  interpretation : Option (List CodeableConcept) := none
  effectiveDateTime : Option String := none
  effectivePeriod : Option Period := none
deriving Repr, DecidableEq

structure AllergyReaction where
  severity : Option String := none
  manifestation : Option (List CodeableConcept) := none
deriving Repr, DecidableEq

structure AllergyR where
  type : Option String := none
  code : Option CodeableConcept := none
  reaction : Option (List AllergyReaction) := none
  onsetDateTime : Option String := none
  recordedDate : Option String := none
deriving Repr, DecidableEq

/-- `condition.asserter`: either a bare reference, an inline Practitioner
resource, or some other object (the source checks `.reference` first,
then `.resourceType === 'Practitioner'`). -/
inductive AsserterV where
  | refOnly (reference : String) : AsserterV
  | practitionerA (p : PractitionerR) : AsserterV
  | otherAsserter : AsserterV
deriving Repr, DecidableEq

structure ConditionR where
  code : Option CodeableConcept := none
  category : Option (List CodeableConcept) := none
  onsetDateTime : Option String := none
  recordedDate : Option String := none
  asserter : Option AsserterV := none
deriving Repr, DecidableEq

/-- A FHIR resource as classified by the assembler: the constructor is
the `resourceType` tag of the JS object. -/
inductive Resource where
  | patient (p : PatientR) : Resource
  | encounter (e : EncounterR) : Resource
  | relatedPerson (rp : RelatedPersonR) : Resource
  | observation (o : ObservationR) : Resource
  | allergyIntolerance (a : AllergyR) : Resource
  | condition (c : ConditionR) : Resource
  | practitioner (pr : PractitionerR) : Resource
  | other (tag : String) : Resource
deriving Repr, DecidableEq

/-- The `resourceType` string of a resource. -/
def Resource.resourceType : Resource → String
  | .patient _ => "Patient"
  | .encounter _ => "Encounter"
  | .relatedPerson _ => "RelatedPerson"
  | .observation _ => "Observation"
  | .allergyIntolerance _ => "AllergyIntolerance"
  | .condition _ => "Condition"
  | .practitioner _ => "Practitioner"
  | .other tag => tag

/-! ## Field extractors -/

/-- Scan for the first occurrence of the pattern `dd:dd:dd`
(the JS regex `(\d{2}):(\d{2}):(\d{2})` searched left to right);
returns the six digit characters concatenated. -/
def findTimeMatch : List Char → Option String
  | c1 :: rest =>
    (match rest with
     | c2 :: k1 :: c3 :: c4 :: k2 :: c5 :: c6 :: _ =>
       if c1.isDigit && c2.isDigit && k1 = ':' && c3.isDigit && c4.isDigit
           && k2 = ':' && c5.isDigit && c6.isDigit then
         some (String.mk [c1, c2, c3, c4, c5, c6])
       else findTimeMatch rest
     | _ => findTimeMatch rest)
  | [] => none

/-- Embeds `convertFHIRDateTimeToHL7` (source lines 26-56). -/
def convertFHIRDateTimeToHL7 (fhirDateTime : String) : String :=
  if fhirDateTime = "" ∨ jsTrim fhirDateTime = "" then ""
  else
    let cleaned := (jsSplit (jsTrim fhirDateTime) "T").headD ""
    let parts := jsSplit cleaned "-"
    if parts.length ≥ 3 then
      let year := parts.getD 0 ""
      let month := jsOrS (parts.getD 1 "") "01"
      let day := jsOrS (parts.getD 2 "") "01"
      let hl7Date := year ++ month ++ day
      if jsIncludes fhirDateTime "T" then
        let timePart := (jsSplit fhirDateTime "T").getD 1 ""
        if timePart ≠ "" then
          match findTimeMatch timePart.data with
          | some t => hl7Date ++ t
          | none => hl7Date
        else hl7Date
      else hl7Date
    else ""

/-- Embeds `convertFHIRNameToHL7` (source lines 63-93). -/
def convertFHIRNameToHL7 (humanName : Option HumanName) : String :=
  match humanName with
  | none => ""
  | some n =>
    let familyPart := n.family.getD ""
    let givenNames := n.given.getD []
    let firstGiven := if givenNames.length > 0 then givenNames.headD "" else ""
    let middle :=
      if givenNames.length > 0 then
        if givenNames.length > 1 then String.intercalate " " (givenNames.drop 1) else ""
      else ""
    let suffixPart := match n.suffix with
      | some (s :: _) => s
      | _ => ""
    let prefixPart := match n.prfx with
      | some (s :: _) => s
      | _ => ""
    String.intercalate "^" [familyPart, firstGiven, middle, suffixPart, prefixPart, ""]

/-- Embeds `convertFHIRAddressToHL7` (source lines 100-122). -/
def convertFHIRAddressToHL7 (address : Option Address) : String :=
  match address with
  | none => ""
  | some a =>
    let lines := a.line.getD []
    String.intercalate "^"
      [jsOrS (String.intercalate " " lines) "", a.city.getD "", a.state.getD "",
       a.postalCode.getD "", a.country.getD ""]

/-- Embeds `convertFHIRGenderToHL7` (source lines 129-140). -/
def convertFHIRGenderToHL7 (gender : Option String) : String :=
  match gender with
  | none => "U"
  | some g =>
    if g = "" then "U"
    else match jsToLower g with
      | "male" => "M"
      | "female" => "F"
      | "other" => "O"
      | "unknown" => "U"
      | _ => "U"

/-- The closed marital-status translation table (source lines 151-162). -/
def maritalMapping : String → Option String
  | "A" => some "A"
  | "D" => some "D"
  | "I" => some "I"
  | "L" => some "L"
  | "M" => some "M"
  | "P" => some "P"
  | "S" => some "S"
  | "T" => some "T"
  | "W" => some "W"
  | "UNK" => some "U"
  | _ => none

/-- Embeds `convertFHIRMaritalStatusToHL7` (source lines 147-166). -/
def convertFHIRMaritalStatusToHL7 (maritalStatus : Option CodeableConcept) : String :=
  match maritalStatus with
  | none => ""
  | some m =>
    match m.coding with
    | none => ""
    | some cs =>
      let code := cs.head?.bind (·.code)
      let mapped := code.bind maritalMapping
      jsOr mapped (jsOr code "")

/-- JS `s.replace(/^http(s)?:\/\//, '')`. -/
def stripProtocol (s : String) : String :=
  if "https://".data.isPrefixOf s.data then String.mk (s.data.drop 8)
  else if "http://".data.isPrefixOf s.data then String.mk (s.data.drop 7)
  else s

/-- JS `s.replace(/\/$/, '')`. -/
def stripTrailingSlash (s : String) : String :=
  if s.data.getLast? = some '/' then String.mk s.data.dropLast else s

/-- Embeds `convertFHIRIdentifierToHL7` (source lines 188-233). -/
def convertFHIRIdentifierToHL7 (identifier : Option Identifier) : String :=
  match identifier with
  | none => ""
  | some id =>
    if !jsTruthy id.value then ""
    else
      let value := id.value.getD ""
      let assigningAuthority :=
        if jsTruthy id.system then
          stripTrailingSlash (stripProtocol ((jsSplit (id.system.getD "") "/").getLastD ""))
        else ""
      let explicitCode : Option String :=
        id.type.bind fun t =>
          t.coding.bind fun cs =>
            cs.head?.map fun c => c.code.getD ""
      let typeCode :=
        match explicitCode with
        | some c => c
        | none =>
          if jsTruthy id.system then
            let sys := id.system.getD ""
            if jsIncludes sys "ssn" || jsIncludes sys "us-ssn" then "SS"
            else if jsIncludes sys "mrn" || jsIncludes sys "medical-record" then "MR"
            else if jsIncludes sys "driver" || jsIncludes sys "dl" then "DL"
            else ""
          else ""
      String.intercalate "^" [value, "", "", assigningAuthority, typeCode, ""]

/-- The argument of `convertFHIRPractitionerToHL7`: a Practitioner
resource, a bare `individual` reference object, or `undefined`. -/
inductive PractArg where
  | pract (p : PractitionerR) : PractArg
  | indiv (i : IndividualRef) : PractArg
  | nullArg : PractArg
deriving Repr, DecidableEq

/-- Embeds `convertFHIRPractitionerToHL7` (source lines 240-276).
A bare reference object has no `resourceType`, so it falls through to the
final `return ''` (after the `.reference` truthiness check). -/
def convertFHIRPractitionerToHL7 (practitionerRef : PractArg) : String :=
  match practitionerRef with
  | .nullArg => ""
  | .indiv _ => ""
  | .pract p =>
    let nameParts :=
      match p.name with
      | some (name :: _) =>
        [name.family.getD "", (name.given.getD []).headD "",
         if (name.given.getD []).length > 1 then
           String.intercalate " " ((name.given.getD []).drop 1)
         else "",
         (name.suffix.getD []).headD "", (name.prfx.getD []).headD "", ""]
      | _ => ["", "", "", "", "", ""]
    String.intercalate "^" ((p.id.getD "" :: nameParts) ++ ["", ""])

/-! ## Header builders and message-type resolver -/

/-- Configuration options recognized by `createMSHSegment`. -/
structure Options where
  sendingApplication : Option String := none
  sendingFacility : Option String := none
  receivingApplication : Option String := none
  receivingFacility : Option String := none
  processingId : Option String := none
  versionId : Option String := none
deriving Repr, DecidableEq

/-- JS `now.toISOString().replace(/[-:]/g, '').split('.')[0]`. -/
def isoToHL7Timestamp (isoNow : String) : String :=
  (jsSplit (jsReplaceAll (jsReplaceAll isoNow "-" "") ":" "") ".").headD ""

/-- The field list of the MSH segment (source lines 290-311).
`nowISO` is the value read from `new Date().toISOString()` and `rand`
the value of `Math.floor(Math.random() * 1000)`. -/
def mshFields (messageType : String) (messageControlId : Option String)
    (options : Options) (nowISO : String) (rand : Nat) : List String :=
  let timestamp := isoToHL7Timestamp nowISO
  let controlId := jsOr messageControlId ("MSG" ++ timestamp ++ toString rand)
  ["MSH", "^~\\&",
   jsOr options.sendingApplication "FHIR-HYDRANT",
   jsOr options.sendingFacility "FHIR-HYDRANT-FACILITY",
   jsOr options.receivingApplication "RECEIVING-APP",
   jsOr options.receivingFacility "RECEIVING-FACILITY",
   timestamp, "", messageType, controlId,
   jsOr options.processingId "P",
   jsOr options.versionId "2.5",
   "", "", "", "", "", "", "", ""]

/-- Embeds `createMSHSegment` (source lines 285-314). -/
def createMSHSegment (messageType : String) (messageControlId : Option String)
    (options : Options) (nowISO : String) (rand : Nat) : String :=
  String.intercalate "|" (mshFields messageType messageControlId options nowISO rand)

/-- The field list of the EVN segment (source lines 1279-1288). -/
def evnFields (eventType : String) (recordedDateTime : Option String)
    (nowISO : String) : List String :=
  let timestamp :=
    if jsTruthy recordedDateTime then convertFHIRDateTimeToHL7 (recordedDateTime.getD "")
    else isoToHL7Timestamp nowISO
  ["EVN", eventType, timestamp, "", "", "SendingUserID", "", ""]

/-- Embeds `createEVNSegment` (source lines 1273-1291). -/
def createEVNSegment (eventType : String) (recordedDateTime : Option String)
    (nowISO : String) : String :=
  String.intercalate "|" (evnFields eventType recordedDateTime nowISO)

/-- Result of `determineMessageType`. -/
structure MsgType where
  messageType : String
  eventType : String
deriving Repr, DecidableEq

/-- Embeds `determineMessageType` (source lines 1298-1326). A non-Encounter
resource has `status` and `class` undefined in JS, so it takes the default
branch and resolves to Update. -/
def determineMessageType (encounter : Option Resource) : MsgType :=
  match encounter with
  | none => ⟨"ADT^A08", "A08"⟩
  | some (.encounter e) =>
    let status := e.status
    let classCode := e.cls.bind (·.code)
    if status = some "planned" then ⟨"ADT^A04", "A04"⟩
    else if status = some "arrived" ∨ status = some "in-progress" then ⟨"ADT^A01", "A01"⟩
    else if status = some "finished" ∨ status = some "cancelled" then ⟨"ADT^A03", "A03"⟩
    else if status = some "onleave" then ⟨"ADT^A14", "A14"⟩
    else if classCode = some "IMP" then ⟨"ADT^A01", "A01"⟩
    else ⟨"ADT^A08", "A08"⟩
  | some _ => ⟨"ADT^A08", "A08"⟩

/-! ## PID segment builder -/

/-- `patient.extension?.find(ext => ext.url === url)`. -/
def findExtension (exts : Option (List FExtension)) (url : String) : Option FExtension :=
  (exts.getD []).find? (fun e => e.url = some url)

/-- The `ombCategory` code collection used for PID-10 / PID-22:
`raceExt.extension.filter(e => e.url === 'ombCategory').map(e =>
e.valueCoding?.code || '').filter(c => c)`. -/
def ombCategoryCodes (subs : List SubExt) : List String :=
  ((subs.filter (fun e => e.url = some "ombCategory")).map
    (fun e => (e.valueCoding.bind (·.code)).getD "")).filter (fun c => c ≠ "")

/-- PID-10 / PID-22 value from a race/ethnicity extension. -/
def extCategoryField (ext : Option FExtension) : String :=
  match ext.bind (·.extension) with
  | some subs =>
    let codes := ombCategoryCodes subs
    if codes.length > 0 then String.intercalate "~" codes else ""
  | none => ""

/-- The identifier-search predicate of PID-18 (`code === 'AN' ||
display.toLowerCase().includes('account')`). -/
def isAccountIdentifier (id : Identifier) : Bool :=
  (id.type.bind (·.coding)).getD [] |>.any fun c =>
    decide (c.code = some "AN") ||
      (match c.display with
       | some d => jsIncludes (jsToLower d) "account"
       | none => false)

/-- The identifier-search predicate of PID-19. -/
def isSsnIdentifier (id : Identifier) : Bool :=
  ((id.type.bind (·.coding)).getD [] |>.any fun c => c.code = some "SS") ||
    (match id.system with
     | some sys => jsIncludes sys "ssn" || jsIncludes sys "us-ssn"
     | none => false)

/-- The identifier-search predicate of PID-20. -/
def isDlIdentifier (id : Identifier) : Bool :=
  ((id.type.bind (·.coding)).getD [] |>.any fun c => c.code = some "DL") ||
    (match id.system with
     | some sys => jsIncludes sys "driver" || jsIncludes sys "dl"
     | none => false)

/-- PID-20 value for a found driver's-license identifier. -/
def dlField (dl : Identifier) : String :=
  let dlValue := convertFHIRIdentifierToHL7 (some dl)
  let state :=
    ((dl.extension.getD []).find? (fun e =>
        e.url = some "http://hl7.org/fhir/StructureDefinition/identifier-state")).bind
      (·.valueString)
  let expiration :=
    match dl.period.bind (·.stop) with
    | some e => convertFHIRDateTimeToHL7 e
    | none => ""
  if jsTruthy state ∨ expiration ≠ "" then
    dlValue ++ "^" ++ state.getD "" ++ "^" ++ expiration
  else dlValue

/-- The field list of the PID segment (source lines 321-561, body of
`convertPatientToPID` after the resource-kind check). `nowISO` is the
value `new Date().toISOString()` read at PID-29 when `deceasedBoolean`
is true without a death date. -/
def pidFields (patient : PatientR) (nowISO : String) : List String :=
  ["PID",
   "1",
   "",
   (match patient.identifier with
    | some (_ :: _) =>
      jsOrS (String.intercalate "~"
        (((patient.identifier.getD []).map (fun id => convertFHIRIdentifierToHL7 (some id))).filter
          (fun s => s ≠ ""))) ""
    | _ => ""),
   "",
   (match patient.name with
    | some (_ :: _) =>
      jsOrS (String.intercalate "~"
        ((patient.name.getD []).map (fun n => convertFHIRNameToHL7 (some n)))) ""
    | _ => ""),
   ((findExtension patient.extension
      "http://hl7.org/fhir/StructureDefinition/patient-mothersMaidenName").bind
        (·.valueString) |> fun v => if jsTruthy v then v.getD "" else ""),
   (if jsTruthy patient.birthDate then convertFHIRDateTimeToHL7 (patient.birthDate.getD "")
    else ""),
   convertFHIRGenderToHL7 patient.gender,
   (let aliasNames := (patient.name.getD []).filter
      (fun n => n.use = some "nickname" ∨ n.use = some "usual")
    if patient.name.isSome ∧ aliasNames.length > 0 then
      jsOrS (String.intercalate "~" (aliasNames.map (fun n => convertFHIRNameToHL7 (some n)))) ""
    else ""),
   extCategoryField (findExtension patient.extension
     "http://hl7.org/fhir/us/core/StructureDefinition/us-core-race"),
   (match patient.address with
    | some (_ :: _) =>
      jsOrS (String.intercalate "~"
        ((patient.address.getD []).map (fun a => convertFHIRAddressToHL7 (some a)))) ""
    | _ => ""),
   jsOr ((patient.address.getD []).head?.bind (·.district)) "",
   jsOr (((patient.telecom.getD []).find? (fun t =>
      t.system = some "phone" ∧ (t.use = some "home" ∨ ¬jsTruthy t.use))).bind (·.value)) "",
   jsOr (((patient.telecom.getD []).find? (fun t =>
      t.system = some "phone" ∧ t.use = some "work")).bind (·.value)) "",
   jsOr (((patient.communication.getD []).find? (fun c => c.preferred = some true)).bind
      (fun c => (c.language.bind (·.coding)).getD [] |>.head?.bind (·.code))) "",
   (match patient.maritalStatus with
    | some ms => convertFHIRMaritalStatusToHL7 (some ms)
    | none => ""),
   ((findExtension patient.extension
      "http://hl7.org/fhir/StructureDefinition/patient-religion").bind
        (fun e => (e.valueCodeableConcept.bind (·.coding)).getD [] |>.head?.bind (·.code))
      |> fun v => if jsTruthy v then v.getD "" else ""),
   (match (patient.identifier.getD []).find? isAccountIdentifier with
    | some acc => convertFHIRIdentifierToHL7 (some acc)
    | none => ""),
   (match (patient.identifier.getD []).find? isSsnIdentifier with
    | some ssn => convertFHIRIdentifierToHL7 (some ssn)
    | none => ""),
   (match (patient.identifier.getD []).find? isDlIdentifier with
    | some dl => dlField dl
    | none => ""),
   "",
   extCategoryField (findExtension patient.extension
     "http://hl7.org/fhir/us/core/StructureDefinition/us-core-ethnicity"),
   (match (findExtension patient.extension
      "http://hl7.org/fhir/StructureDefinition/birthPlace").bind (·.valueAddress) with
    | some addr => convertFHIRAddressToHL7 (some addr)
    | none => ""),
   (match patient.multipleBirthBoolean with
    | some b => if b then "Y" else "N"
    | none => match patient.multipleBirthInteger with
      | some n => if n ≠ 0 then "Y" else ""
      | none => ""),
   (match patient.multipleBirthInteger with
    | some n => if n ≠ 0 then toString n else ""
    | none => ""),
   ((findExtension patient.extension
      "http://hl7.org/fhir/StructureDefinition/patient-citizenship").bind
        (fun e => (e.valueCodeableConcept.bind (·.coding)).getD [] |>.head?.bind (·.code))
      |> fun v => if jsTruthy v then v.getD "" else ""),
   "",
   "",
   (if jsTruthy patient.deceasedDateTime then
      convertFHIRDateTimeToHL7 (patient.deceasedDateTime.getD "")
    else if patient.deceasedBoolean = some true then convertFHIRDateTimeToHL7 nowISO
    else ""),
   (match patient.deceasedBoolean with
    | some b => if b then "Y" else "N"
    | none => if jsTruthy patient.deceasedDateTime then "Y" else "")]

/-- Embeds `convertPatientToPID` (source lines 321-561): throws
`Invalid Patient resource` unless the record's kind tag is `Patient`. -/
def convertPatientToPID (patient : Resource) (nowISO : String) : Except String String :=
  match patient with
  | .patient p => .ok (String.intercalate "|" (pidFields p nowISO))
  | .other tag =>
    if tag = "Patient" then .ok (String.intercalate "|" (pidFields {} nowISO))
    else .error "Invalid Patient resource"
  | _ => .error "Invalid Patient resource"

/-! ## PV1 segment builder -/

/-- `participant.type?.some(t => t.coding?.some(c => c.code === code))`. -/
def participantHasRole (p : Participant) (code : String) : Bool :=
  (p.type.getD []).any fun t => (t.coding.getD []).any fun c => c.code = some code

/-- The practitioner lookup of PV1-7/8/9/17:
`practitioners.find(p => p.id === ref.split('/')[1] || p.resourceType ===
'Practitioner' && ref.includes(p.id)) || doc.individual`. Every element of
`practitioners` has `resourceType === 'Practitioner'` (the assembler
filters by it), and JS `ref.includes(undefined)` searches for the literal
string `undefined`. -/
def findPractitioner (practitioners : List PractitionerR) (doc : Participant) : PractArg :=
  let refOpt := doc.individual.bind (·.reference)
  match practitioners.find? (fun p =>
      decide (p.id = refOpt.bind (fun ref => (jsSplit ref "/").get? 1)) ||
        (match refOpt with
         | some ref => jsIncludes ref (p.id.getD "undefined")
         | none => false)) with
  | some p => .pract p
  | none =>
    match doc.individual with
    | some i => .indiv i
    | none => .nullArg

/-- PV1-7/8/17: the XCN string for the first participant with the given
role code, or the empty string. -/
def doctorField (e : EncounterR) (practitioners : List PractitionerR) (role : String) : String :=
  match (e.participant.getD []).find? (fun p => participantHasRole p role) with
  | some doc => convertFHIRPractitionerToHL7 (findPractitioner practitioners doc)
  | none => ""

/-- The field list of the PV1 segment (source lines 569-844, body of
`convertEncounterToPV1` after the resource-kind check). -/
def pv1Fields (e : EncounterR) (practitioners : List PractitionerR) : List String :=
  ["PV1",
   "1",
   (match e.cls with
    | none => "I"
    | some c =>
      match c.code with
      | some "IMP" => "I"
      | some "AMB" => "O"
      | some "EMER" => "E"
      | some "PRENC" => "P"
      | some "OBSENC" => "O"
      | some "NONAC" => "N"
      | some "SS" => "S"
      | _ => "I"),
   (match e.location with
    | some (loc :: _) =>
      let disp := loc.location.bind (·.display)
      if jsTruthy disp then
        let d := disp.getD ""
        if jsIncludes d "^" then d else d
      else
        let idv := (loc.location.bind (·.identifier)).bind (·.value)
        if jsTruthy idv then idv.getD "" else ""
    | _ => ""),
   (match ((e.hospitalization.bind (·.admitSource)).bind (·.coding)).getD [] |>.head?.bind
      (·.code) with
    | some "hosp-trans" => "TR"
    | some "emd" => "E"
    | some "outp" => "O"
    | some "born" => "NB"
    | some "gp" => "GP"
    | _ => ""),
   jsOr (((e.identifier.getD []).find? (fun id =>
      (id.type.bind (·.coding)).getD [] |>.any fun c =>
        decide (c.code = some "VN") ||
          (match c.display with
           | some d => jsIncludes (jsToLower d) "preadmit"
           | none => false))).bind (·.value)) "",
   jsOr ((e.hospitalization.bind (·.preAdmissionIdentifier)).bind (·.value)) "",
   doctorField e practitioners "ATND",
   doctorField e practitioners "REF",
   (let consultingDoctors := (e.participant.getD []).filter
      (fun p => participantHasRole p "CON")
    if e.participant.isSome ∧ consultingDoctors.length > 0 then
      jsOrS (String.intercalate "~"
        ((consultingDoctors.map (fun doc =>
          convertFHIRPractitionerToHL7 (findPractitioner practitioners doc))).filter
            (fun d => d ≠ ""))) ""
    else ""),
   jsOr ((e.type.getD []).head?.bind (fun t => (t.coding.getD []).head?.bind (·.code))) "",
   "",
   "",
   jsOr (((e.hospitalization.bind (·.reAdmission)).bind (·.coding)).getD [] |>.head?.bind
     (·.code)) "",
   jsOr (((e.hospitalization.bind (·.admitSource)).bind (·.coding)).getD [] |>.head?.bind
     (·.code)) "",
   "",
   "",
   doctorField e practitioners "ADM",
   "",
   (match (e.identifier.getD []).find? (fun id =>
      (id.type.bind (·.coding)).getD [] |>.any fun c =>
        decide (c.code = some "VN") ||
          (match c.display with
           | some d => jsIncludes (jsToLower d) "visit"
           | none => false)) with
    | some vn => convertFHIRIdentifierToHL7 (some vn)
    | none => ""),
   jsOr ((e.classHistory.getD []).head?.bind (fun ch => ch.cls.bind (·.code))) "",
   "", "", "", "", "", "", "", "", "", "", "", "", "", "", "",
   jsOr (((e.hospitalization.bind (·.dischargeDisposition)).bind (·.coding)).getD []
     |>.head?.bind (·.code)) "",
   "", "", "",
   (match (e.location.getD []).head?.bind (·.status) with
    | some "active" => "O"
    | some "reserved" => "R"
    | some "inactive" => "C"
    | _ => ""),
   "", "", "",
   (match e.period with
    | some p => if jsTruthy p.start then convertFHIRDateTimeToHL7 (p.start.getD "") else ""
    | none => ""),
   (match e.period with
    | some p => if jsTruthy p.stop then convertFHIRDateTimeToHL7 (p.stop.getD "") else ""
    | none => ""),
   "", "", "", "",
   (match (e.identifier.getD []).find? (fun id =>
      id.use = some "secondary" ∨
        ((id.type.bind (·.coding)).getD [] |>.any fun c => c.code = some "VN")) with
    | some alt => convertFHIRIdentifierToHL7 (some alt)
    | none => "")]

/-- Embeds `convertEncounterToPV1` (source lines 569-845): returns the
empty string unless the record's kind tag is `Encounter`. -/
def convertEncounterToPV1 (encounter : Resource) (practitioners : List PractitionerR) : String :=
  match encounter with
  | .encounter e => String.intercalate "|" (pv1Fields e practitioners)
  | .other tag =>
    if tag = "Encounter" then String.intercalate "|" (pv1Fields {} practitioners) else ""
  | _ => ""

/-! ## NK1, OBX, AL1, DG1 segment builders -/

/-- The field list of the NK1 segment (source lines 853-933). -/
def nk1Fields (rp : RelatedPersonR) (setId : Nat) : List String :=
  ["NK1",
   toString setId,
   (match rp.name with
    | some (_ :: _) =>
      jsOrS (String.intercalate "~"
        ((rp.name.getD []).map (fun n => convertFHIRNameToHL7 (some n)))) ""
    | _ => ""),
   (match rp.relationship with
    | some (rel :: _) =>
      let code := ((rel.coding.getD []).head?.bind (·.code)).getD ""
      let display := jsOr ((rel.coding.getD []).head?.bind (·.display)) (jsOr rel.text "")
      let system := ((rel.coding.getD []).head?.bind (·.system)).getD ""
      code ++ "^" ++ display ++ "^" ++ system
    | _ => ""),
   (match rp.address with
    | some (_ :: _) =>
      jsOrS (String.intercalate "~"
        ((rp.address.getD []).map (fun a => convertFHIRAddressToHL7 (some a)))) ""
    | _ => ""),
   jsOr (((rp.telecom.getD []).find? (fun t =>
      t.system = some "phone" ∧ (t.use = some "home" ∨ ¬jsTruthy t.use))).bind (·.value)) "",
   jsOr (((rp.telecom.getD []).find? (fun t =>
      t.system = some "phone" ∧ t.use = some "work")).bind (·.value)) "",
   "",
   (match rp.period with
    | some p => if jsTruthy p.start then convertFHIRDateTimeToHL7 (p.start.getD "") else ""
    | none => ""),
   (match rp.period with
    | some p => if jsTruthy p.stop then convertFHIRDateTimeToHL7 (p.stop.getD "") else ""
    | none => ""),
   "", "", "", "",
   "", "", "", "", "", "", "", "", "", "", "", "", "", "", "", "", "", ""]

/-- Embeds `convertRelatedPersonToNK1` (source lines 853-934). -/
def convertRelatedPersonToNK1 (relatedPerson : Resource) (setId : Nat) : String :=
  match relatedPerson with
  | .relatedPerson rp => String.intercalate "|" (nk1Fields rp setId)
  | .other tag =>
    if tag = "RelatedPerson" then String.intercalate "|" (nk1Fields {} setId) else ""
  | _ => ""

/-- `Code^Display(or text)^System` from the first coding of a
CodeableConcept (OBX-3, AL1-3, DG1-3 shape). -/
def firstCodingField (cc : CodeableConcept) : String :=
  match cc.coding with
  | some (coding :: _) =>
    let code := coding.code.getD ""
    let display := jsOr coding.display (jsOr cc.text "")
    let system := coding.system.getD ""
    code ++ "^" ++ display ++ "^" ++ system
  | _ => ""

/-- The field list of the OBX segment (source lines 942-1075). -/
def obxFields (o : ObservationR) (setId : Nat) : List String :=
  ["OBX",
   toString setId,
   (if o.valueQuantity.isSome then "NM"
    else if o.valueCodeableConcept.isSome then "CE"
    else if jsTruthy o.valueDateTime ∨ jsTruthy o.valueDate then "DT"
    else if jsTruthy o.valueTime then "TM"
    else if jsTruthy o.valueString then "ST"
    else "ST"),
   (match o.code with
    | some cc =>
      match cc.coding with
      | some (_ :: _) => firstCodingField cc
      | _ => ""
    | none => ""),
   "",
   (match o.valueQuantity with
    | some q => jsOr q.value ""
    | none =>
      match o.valueCodeableConcept with
      | some cc => jsOr ((cc.coding.getD []).head?.bind (·.code)) (jsOr cc.text "")
      | none =>
        if jsTruthy o.valueDateTime then convertFHIRDateTimeToHL7 (o.valueDateTime.getD "")
        else if jsTruthy o.valueDate then convertFHIRDateTimeToHL7 (o.valueDate.getD "")
        else if jsTruthy o.valueTime then o.valueTime.getD ""
        else if jsTruthy o.valueString then o.valueString.getD ""
        else match o.valueBoolean with
          | some b => if b then "Y" else "N"
          | none => ""),
   (match o.valueQuantity with
    | some q =>
      if jsTruthy q.unit then
        let unit := q.unit.getD ""
        let system := jsOr q.system "http://unitsofmeasure.org"
        let code := q.code.getD ""
        unit ++ "^" ++ unit ++ "^" ++ system ++ "^" ++ code
      else ""
    | none => ""),
   "",
   (match (o.interpretation.getD []).head?.bind
      (fun i => (i.coding.getD []).head?.bind (·.code)) with
    | some "L" => "L"
    | some "LL" => "LL"
    | some "H" => "H"
    | some "HH" => "HH"
    | some "N" => "N"
    | some "A" => "A"
    | _ => ""),
   "",
   "",
   (match o.status with
    | some "registered" => "I"
    | some "preliminary" => "P"
    | some "final" => "F"
    | some "amended" => "C"
    | some "corrected" => "C"
    | some "cancelled" => "X"
    | some "entered-in-error" => "E"
    | some "unknown" => "U"
    | _ => "F"),
   (if jsTruthy o.effectiveDateTime then
      convertFHIRDateTimeToHL7 (o.effectiveDateTime.getD "")
    else if jsTruthy (o.effectivePeriod.bind (·.start)) then
      convertFHIRDateTimeToHL7 ((o.effectivePeriod.bind (·.start)).getD "")
    else ""),
   "", "", "", "", ""]

/-- Embeds `convertObservationToOBX` (source lines 942-1075). -/
def convertObservationToOBX (observation : Resource) (setId : Nat) : String :=
  match observation with
  | .observation o => String.intercalate "|" (obxFields o setId)
  | .other tag =>
    if tag = "Observation" then String.intercalate "|" (obxFields {} setId) else ""
  | _ => ""

/-- The field list of the AL1 segment (source lines 1083-1149). -/
def al1Fields (a : AllergyR) (setId : Nat) : List String :=
  ["AL1",
   toString setId,
   (match jsOr a.type "allergy" with
    | "allergy" => "DA"
    | "intolerance" => "FA"
    | "environment" => "EA"
    | "biologic" => "MA"
    | _ => "MA"),
   (match a.code with
    | some cc =>
      match cc.coding with
      | some (_ :: _) => firstCodingField cc
      | _ => ""
    | none => ""),
   (match (a.reaction.getD []).head?.bind (·.severity) with
    | some "mild" => "MI"
    | some "moderate" => "MO"
    | some "severe" => "SV"
    | _ => ""),
   (match a.reaction with
    | some (_ :: _) =>
      jsOrS (String.intercalate "~"
        (((a.reaction.getD []).map (fun r =>
          match r.manifestation with
          | some (m :: _) =>
            let code := ((m.coding.getD []).head?.bind (·.code)).getD ""
            let display := jsOr ((m.coding.getD []).head?.bind (·.display)) (jsOr m.text "")
            code ++ "^" ++ display
          | _ => "")).filter (fun r => r ≠ ""))) ""
    | _ => ""),
   (if jsTruthy a.onsetDateTime then convertFHIRDateTimeToHL7 (a.onsetDateTime.getD "")
    else if jsTruthy a.recordedDate then convertFHIRDateTimeToHL7 (a.recordedDate.getD "")
    else "")]

/-- Embeds `convertAllergyIntoleranceToAL1` (source lines 1083-1150). -/
def convertAllergyIntoleranceToAL1 (allergy : Resource) (setId : Nat) : String :=
  match allergy with
  | .allergyIntolerance a => String.intercalate "|" (al1Fields a setId)
  | .other tag =>
    if tag = "AllergyIntolerance" then String.intercalate "|" (al1Fields {} setId) else ""
  | _ => ""

/-- The field list of the DG1 segment (source lines 1158-1264). -/
def dg1Fields (c : ConditionR) (setId : Nat) : List String :=
  ["DG1",
   toString setId,
   "",
   (match c.code with
    | some cc =>
      match cc.coding with
      | some (_ :: _) => firstCodingField cc
      | _ => ""
    | none => ""),
   (if jsTruthy (c.code.bind (·.text)) then (c.code.bind (·.text)).getD "" else ""),
   (if jsTruthy c.onsetDateTime then convertFHIRDateTimeToHL7 (c.onsetDateTime.getD "")
    else if jsTruthy c.recordedDate then convertFHIRDateTimeToHL7 (c.recordedDate.getD "")
    else ""),
   (match (c.category.getD []).head?.bind
      (fun cat => (cat.coding.getD []).head?.bind (·.code)) with
    | some "encounter-diagnosis" => "A"
    | some "problem-list-item" => "F"
    | some "health-concern" => "W"
    | _ => "F"),
   "", "", "", "", "", "", "", "", "",
   (match c.asserter with
    | some (.refOnly _) => ""
    | some (.practitionerA p) => convertFHIRPractitionerToHL7 (.pract p)
    | some .otherAsserter => ""
    | none => ""),
   "", "", "", "", ""]

/-- Embeds `convertConditionToDG1` (source lines 1158-1265). -/
def convertConditionToDG1 (condition : Resource) (setId : Nat) : String :=
  match condition with
  | .condition c => String.intercalate "|" (dg1Fields c setId)
  | .other tag =>
    if tag = "Condition" then String.intercalate "|" (dg1Fields {} setId) else ""
  | _ => ""

/-! ## Message assembler -/

/-- The clock/randomness collaborator: the values the source reads from
`new Date()` / `Math.random()` during one conversion call, made explicit.
`mshNowISO` and `evnNowISO` are the two independent `new Date()` reads of
`createMSHSegment` and `createEVNSegment`; `pidNowISO` the read at PID-29;
`rand` the value of `Math.floor(Math.random() * 1000)`. -/
structure Clock where
  mshNowISO : String
  evnNowISO : String
  pidNowISO : String
  rand : Nat
deriving Repr, DecidableEq

/-- A Bundle entry (`entry[k].resource` may be absent). -/
structure BundleEntry where
  resource : Option Resource := none
deriving Repr, DecidableEq

/-- The top-level argument of `convertFHIRToHL7`: `null`/`undefined`, a
single resource, an array of resources, or a Bundle (whose `entry` list
may be absent, in which case the JS falls through to the single-resource
branch with the Bundle object itself). -/
inductive FhirInput where
  | nullInput : FhirInput
  | single (r : Resource) : FhirInput
  | list (rs : List Resource) : FhirInput
  | bundle (entry : Option (List BundleEntry)) : FhirInput
deriving Repr, DecidableEq

/-- The resource list extracted at source lines 1340-1347. -/
def resolveResources : FhirInput → List Resource
  | .nullInput => []
  | .bundle (some entries) => entries.filterMap (·.resource)
  | .bundle none => [.other "Bundle"]
  | .list rs => rs
  | .single r => [r]

/-- One repeatable-segment group (source lines 1388-1417): JS
`group.forEach((r, index) => { const seg = conv(r, index + 1); if (seg)
segments.push(seg) })`, as a recursion over the group with the running
0-based index. -/
def numberedSegs (conv : Resource → Nat → String) (rs : List Resource) (i : Nat) :
    List String :=
  match rs with
  | [] => []
  | r :: rest =>
    let s := conv r (i + 1)
    if s = "" then numberedSegs conv rest (i + 1)
    else s :: numberedSegs conv rest (i + 1)

/-- `resources.filter(r => r.resourceType === 'Practitioner')`, carried to
the typed record (every element of the filtered list is a Practitioner). -/
def practitionersOf (resources : List Resource) : List PractitionerR :=
  resources.filterMap fun r =>
    match r with
    | .practitioner p => some p
    | .other tag => if tag = "Practitioner" then some {} else none
    | _ => none

/-- `patient.meta?.lastUpdated` of the located Patient resource. -/
def patientMetaLastUpdated : Resource → Option String
  | .patient p => p.meta.bind (·.lastUpdated)
  | _ => none

/-- The segment list built at source lines 1363-1417, given the located
Patient resource and its PID segment. -/
def buildSegments (resources : List Resource) (patient : Resource) (pidSegment : String)
    (options : Options) (clock : Clock) : List String :=
  let encounter := resources.find? (fun r => r.resourceType = "Encounter")
  let relatedPersons := resources.filter (fun r => r.resourceType = "RelatedPerson")
  let observations := resources.filter (fun r => r.resourceType = "Observation")
  let allergies := resources.filter (fun r => r.resourceType = "AllergyIntolerance")
  let conditions := resources.filter (fun r => r.resourceType = "Condition")
  let practitioners := practitionersOf resources
  let mt := determineMessageType encounter
  let recordedDateTime : Option String :=
    match encounter with
    | some (.encounter e) =>
      match e.period.bind (·.start) with
      | some s =>
        if s = "" then (patientMetaLastUpdated patient) else some s
      | none => patientMetaLastUpdated patient
    | _ => patientMetaLastUpdated patient
  [createMSHSegment mt.messageType none options clock.mshNowISO clock.rand,
   createEVNSegment mt.eventType recordedDateTime clock.evnNowISO,
   pidSegment]
  ++ (match encounter with
      | some er =>
        let pv1Segment := convertEncounterToPV1 er practitioners
        if pv1Segment = "" then [] else [pv1Segment]
      | none => [])
  ++ numberedSegs convertRelatedPersonToNK1 relatedPersons 0
  ++ numberedSegs convertAllergyIntoleranceToAL1 allergies 0
  ++ numberedSegs convertConditionToDG1 conditions 0
  ++ numberedSegs convertObservationToOBX observations 0

/-- Embeds `convertFHIRToHL7` (source lines 1334-1420) down to the
segment list (before the final `segments.join('\r')`). -/
def convertFHIRToHL7Segments (fhirResource : FhirInput) (options : Options) (clock : Clock) :
    Except String (List String) :=
  match fhirResource with
  | .nullInput => .error "FHIR resource is required"
  | _ =>
    let resources := resolveResources fhirResource
    match resources.find? (fun r => r.resourceType = "Patient") with
    | none => .error "Patient resource is required for HL7 conversion"
    | some patient =>
      match convertPatientToPID patient clock.pidNowISO with
      | .error e => .error e
      | .ok pidSegment => .ok (buildSegments resources patient pidSegment options clock)

/-- Embeds `convertFHIRToHL7` (source lines 1334-1420): the full message,
segments joined by carriage return. -/
def convertFHIRToHL7 (fhirResource : FhirInput) (options : Options) (clock : Clock) :
    Except String String :=
  (convertFHIRToHL7Segments fhirResource options clock).map (String.intercalate "\r")

/-! ## Fields of a rendered segment

A segment string is its field list joined with `|`; these lemmas recover
the fields of a rendered segment. `splitBar` is the character-level
splitting on `|` (faithful to HL7 field structure in the absence of any
escaping, which the source does not perform). -/

theorem intercalate_go_append (s : String) :
    ∀ (as : List String) (x y : String),
      String.intercalate.go (x ++ y) s as = x ++ String.intercalate.go y s as
  | [], _, _ => rfl
  | a :: as, x, y => by
    show String.intercalate.go (x ++ y ++ s ++ a) s as =
      x ++ String.intercalate.go (y ++ s ++ a) s as
    rw [String.append_assoc, String.append_assoc, ← String.append_assoc y s a]
    exact intercalate_go_append s as x (y ++ s ++ a)

theorem intercalate_cons (s a b : String) (l : List String) :
    String.intercalate s (a :: b :: l) = a ++ s ++ String.intercalate s (b :: l) := by
  show String.intercalate.go a s (b :: l) = a ++ s ++ String.intercalate.go b s l
  show String.intercalate.go (a ++ s ++ b) s l = a ++ s ++ String.intercalate.go b s l
  rw [String.append_assoc a s b]
  have h1 : a ++ (s ++ b) = (a ++ s) ++ b := (String.append_assoc a s b).symm
  calc String.intercalate.go (a ++ (s ++ b)) s l
      = a ++ String.intercalate.go (s ++ b) s l := intercalate_go_append s l a (s ++ b)
    _ = a ++ (s ++ String.intercalate.go b s l) := by
        rw [intercalate_go_append s l s b]
    _ = a ++ s ++ String.intercalate.go b s l := (String.append_assoc a s _).symm

/-- Character-level splitting of a segment on the field separator. -/
def splitBar : List Char → List (List Char)
  | [] => [[]]
  | c :: rest =>
    if c = '|' then [] :: splitBar rest
    else
      match splitBar rest with
      | [] => [[c]]
      | f :: fs => (c :: f) :: fs

theorem splitBar_ne_nil : ∀ l, splitBar l ≠ []
  | [] => by simp [splitBar]
  | c :: rest => by
    simp only [splitBar]
    split
    · simp
    · split
      · simp
      · simp

theorem splitBar_bar (l : List Char) : splitBar ('|' :: l) = [] :: splitBar l := by
  simp [splitBar]

theorem splitBar_append_free :
    ∀ (a l : List Char), (∀ c ∈ a, c ≠ '|') →
      splitBar (a ++ l) = (a ++ (splitBar l).headD []) :: (splitBar l).tail
  | [], l, _ => by
    cases h : splitBar l with
    | nil => exact absurd h (splitBar_ne_nil l)
    | cons f fs => simp [h]
  | c :: a, l, h => by
    have hc : c ≠ '|' := h c (List.mem_cons_self c a)
    have ih := splitBar_append_free a l (fun x hx => h x (List.mem_cons_of_mem c hx))
    simp only [List.cons_append, splitBar, List.append_eq, if_neg hc, ih]

/-- The `|`-separated fields of a segment string. -/
def hl7Fields (s : String) : List String :=
  (splitBar s.data).map String.mk

/-- The tag (first `|`-separated field) of a segment string. -/
def headField (s : String) : String :=
  (hl7Fields s).headD ""

theorem string_mk_data (s : String) : String.mk s.data = s := rfl

theorem hl7Fields_cons (t : String) (l : List String) (h : ∀ c ∈ t.data, c ≠ '|') :
    hl7Fields (String.intercalate "|" (t :: l)) =
      t :: (match l with
            | [] => []
            | g :: gs => hl7Fields (String.intercalate "|" (g :: gs))) := by
  cases l with
  | nil =>
    show hl7Fields t = t :: []
    unfold hl7Fields
    have : t.data = t.data ++ ([] : List Char) := (List.append_nil _).symm
    rw [this, splitBar_append_free t.data [] h]
    simp [splitBar, string_mk_data]
  | cons g gs =>
    rw [intercalate_cons]
    unfold hl7Fields
    have hdata : (t ++ "|" ++ String.intercalate "|" (g :: gs)).data =
        t.data ++ ('|' :: (String.intercalate "|" (g :: gs)).data) := by
      simp [String.data_append]
    rw [hdata, splitBar_append_free t.data _ h, splitBar_bar]
    simp [string_mk_data]

theorem headField_intercalate (t : String) (l : List String) (h : ∀ c ∈ t.data, c ≠ '|') :
    headField (String.intercalate "|" (t :: l)) = t := by
  unfold headField
  rw [hl7Fields_cons t l h]
  rfl

theorem intercalate_bar_ne_empty (t : String) (l : List String) (ht : t ≠ "")
    (h : ∀ c ∈ t.data, c ≠ '|') : String.intercalate "|" (t :: l) ≠ "" := by
  intro hs
  have h1 := hl7Fields_cons t l h
  rw [hs] at h1
  have h2 : hl7Fields "" = [""] := rfl
  rw [h2] at h1
  injection h1 with h3 h4
  exact ht h3.symm

theorem hl7Fields_get_one (t u : String) (l : List String)
    (ht : ∀ c ∈ t.data, c ≠ '|') (hu : ∀ c ∈ u.data, c ≠ '|') :
    (hl7Fields (String.intercalate "|" (t :: u :: l))).get? 1 = some u := by
  rw [hl7Fields_cons t (u :: l) ht]
  show (hl7Fields (String.intercalate "|" (u :: l))).get? 0 = some u
  rw [hl7Fields_cons u l hu]
  rfl

theorem digitChar_ne_bar (n : Nat) : Nat.digitChar n ≠ '|' := by
  rcases Nat.lt_or_ge n 16 with h | h
  · interval_cases n <;> decide
  · unfold Nat.digitChar
    repeat rw [if_neg (by omega)]
    decide

theorem toDigitsCore_ne_bar :
    ∀ (fuel n : Nat) (acc : List Char), (∀ c ∈ acc, c ≠ '|') →
      ∀ c ∈ Nat.toDigitsCore 10 fuel n acc, c ≠ '|'
  | 0, _, _, hacc => hacc
  | fuel + 1, n, acc, hacc => by
    show ∀ c ∈ (if n / 10 = 0 then Nat.digitChar (n % 10) :: acc
      else Nat.toDigitsCore 10 fuel (n / 10) (Nat.digitChar (n % 10) :: acc)), c ≠ '|'
    have hd : ∀ c ∈ Nat.digitChar (n % 10) :: acc, c ≠ '|' := by
      intro c hc
      rcases List.mem_cons.mp hc with h | h
      · exact h ▸ digitChar_ne_bar (n % 10)
      · exact hacc c h
    by_cases h : n / 10 = 0
    · rw [if_pos h]; exact hd
    · rw [if_neg h]; exact toDigitsCore_ne_bar fuel (n / 10) _ hd

theorem toString_nat_ne_bar (n : Nat) : ∀ c ∈ (toString n).data, c ≠ '|' := by
  show ∀ c ∈ Nat.toDigitsCore 10 (n + 1) n [], c ≠ '|'
  exact toDigitsCore_ne_bar (n + 1) n [] (by simp)

/-! ## Segment tags and group lemmas -/

theorem headField_msh (messageType : String) (cid : Option String) (options : Options)
    (nowISO : String) (rand : Nat) :
    headField (createMSHSegment messageType cid options nowISO rand) = "MSH" :=
  headField_intercalate "MSH" _ (by decide)

theorem createMSHSegment_ne_empty (messageType : String) (cid : Option String)
    (options : Options) (nowISO : String) (rand : Nat) :
    createMSHSegment messageType cid options nowISO rand ≠ "" :=
  intercalate_bar_ne_empty "MSH" _ (by decide) (by decide)

theorem headField_evn (eventType : String) (recordedDateTime : Option String)
    (nowISO : String) :
    headField (createEVNSegment eventType recordedDateTime nowISO) = "EVN" :=
  headField_intercalate "EVN" _ (by decide)

theorem headField_pid (p : PatientR) (nowISO : String) :
    headField (String.intercalate "|" (pidFields p nowISO)) = "PID" :=
  headField_intercalate "PID" _ (by decide)

theorem pv1_of_kind (r : Resource) (h : r.resourceType = "Encounter") (practitioners : List PractitionerR) :
    convertEncounterToPV1 r practitioners ≠ "" ∧
      headField (convertEncounterToPV1 r practitioners) = "PV1" := by
  have base : ∀ x : EncounterR, String.intercalate "|" (pv1Fields x practitioners) ≠ "" ∧
      headField (String.intercalate "|" (pv1Fields x practitioners)) = "PV1" := fun x =>
    ⟨intercalate_bar_ne_empty "PV1" _ (by decide) (by decide),
     headField_intercalate "PV1" _ (by decide)⟩
  cases r with
  | patient p => simp only [Resource.resourceType] at h; exact absurd h (by decide)
  | encounter e => exact base e
  | relatedPerson rp => simp only [Resource.resourceType] at h; exact absurd h (by decide)
  | observation o => simp only [Resource.resourceType] at h; exact absurd h (by decide)
  | allergyIntolerance a => simp only [Resource.resourceType] at h; exact absurd h (by decide)
  | condition c => simp only [Resource.resourceType] at h; exact absurd h (by decide)
  | practitioner pr => simp only [Resource.resourceType] at h; exact absurd h (by decide)
  | other tag =>
    simp only [Resource.resourceType] at h
    subst h
    rw [show convertEncounterToPV1 (.other "Encounter") practitioners =
      String.intercalate "|" (pv1Fields {} practitioners) from rfl]
    exact base {}

theorem nk1_of_kind (r : Resource) (h : r.resourceType = "RelatedPerson") (n : Nat) :
    convertRelatedPersonToNK1 r n ≠ "" ∧
      headField (convertRelatedPersonToNK1 r n) = "NK1" := by
  have base : ∀ x : RelatedPersonR, String.intercalate "|" (nk1Fields x n) ≠ "" ∧
      headField (String.intercalate "|" (nk1Fields x n)) = "NK1" := fun x =>
    ⟨intercalate_bar_ne_empty "NK1" _ (by decide) (by decide),
     headField_intercalate "NK1" _ (by decide)⟩
  cases r with
  | patient p => simp only [Resource.resourceType] at h; exact absurd h (by decide)
  | encounter e => simp only [Resource.resourceType] at h; exact absurd h (by decide)
  | relatedPerson rp => exact base rp
  | observation o => simp only [Resource.resourceType] at h; exact absurd h (by decide)
  | allergyIntolerance a => simp only [Resource.resourceType] at h; exact absurd h (by decide)
  | condition c => simp only [Resource.resourceType] at h; exact absurd h (by decide)
  | practitioner pr => simp only [Resource.resourceType] at h; exact absurd h (by decide)
  | other tag =>
    simp only [Resource.resourceType] at h
    subst h
    rw [show convertRelatedPersonToNK1 (.other "RelatedPerson") n =
      String.intercalate "|" (nk1Fields {} n) from rfl]
    exact base {}

theorem al1_of_kind (r : Resource) (h : r.resourceType = "AllergyIntolerance") (n : Nat) :
    convertAllergyIntoleranceToAL1 r n ≠ "" ∧
      headField (convertAllergyIntoleranceToAL1 r n) = "AL1" := by
  have base : ∀ x : AllergyR, String.intercalate "|" (al1Fields x n) ≠ "" ∧
      headField (String.intercalate "|" (al1Fields x n)) = "AL1" := fun x =>
    ⟨intercalate_bar_ne_empty "AL1" _ (by decide) (by decide),
     headField_intercalate "AL1" _ (by decide)⟩
  cases r with
  | patient p => simp only [Resource.resourceType] at h; exact absurd h (by decide)
  | encounter e => simp only [Resource.resourceType] at h; exact absurd h (by decide)
  | relatedPerson rp => simp only [Resource.resourceType] at h; exact absurd h (by decide)
  | observation o => simp only [Resource.resourceType] at h; exact absurd h (by decide)
  | allergyIntolerance a => exact base a
  | condition c => simp only [Resource.resourceType] at h; exact absurd h (by decide)
  | practitioner pr => simp only [Resource.resourceType] at h; exact absurd h (by decide)
  | other tag =>
    simp only [Resource.resourceType] at h
    subst h
    rw [show convertAllergyIntoleranceToAL1 (.other "AllergyIntolerance") n =
      String.intercalate "|" (al1Fields {} n) from rfl]
    exact base {}

theorem dg1_of_kind (r : Resource) (h : r.resourceType = "Condition") (n : Nat) :
    convertConditionToDG1 r n ≠ "" ∧
      headField (convertConditionToDG1 r n) = "DG1" := by
  have base : ∀ x : ConditionR, String.intercalate "|" (dg1Fields x n) ≠ "" ∧
      headField (String.intercalate "|" (dg1Fields x n)) = "DG1" := fun x =>
    ⟨intercalate_bar_ne_empty "DG1" _ (by decide) (by decide),
     headField_intercalate "DG1" _ (by decide)⟩
  cases r with
  | patient p => simp only [Resource.resourceType] at h; exact absurd h (by decide)
  | encounter e => simp only [Resource.resourceType] at h; exact absurd h (by decide)
  | relatedPerson rp => simp only [Resource.resourceType] at h; exact absurd h (by decide)
  | observation o => simp only [Resource.resourceType] at h; exact absurd h (by decide)
  | allergyIntolerance a => simp only [Resource.resourceType] at h; exact absurd h (by decide)
  | condition c => exact base c
  | practitioner pr => simp only [Resource.resourceType] at h; exact absurd h (by decide)
  | other tag =>
    simp only [Resource.resourceType] at h
    subst h
    rw [show convertConditionToDG1 (.other "Condition") n =
      String.intercalate "|" (dg1Fields {} n) from rfl]
    exact base {}

theorem obx_of_kind (r : Resource) (h : r.resourceType = "Observation") (n : Nat) :
    convertObservationToOBX r n ≠ "" ∧
      headField (convertObservationToOBX r n) = "OBX" := by
  have base : ∀ x : ObservationR, String.intercalate "|" (obxFields x n) ≠ "" ∧
      headField (String.intercalate "|" (obxFields x n)) = "OBX" := fun x =>
    ⟨intercalate_bar_ne_empty "OBX" _ (by decide) (by decide),
     headField_intercalate "OBX" _ (by decide)⟩
  cases r with
  | patient p => simp only [Resource.resourceType] at h; exact absurd h (by decide)
  | encounter e => simp only [Resource.resourceType] at h; exact absurd h (by decide)
  | relatedPerson rp => simp only [Resource.resourceType] at h; exact absurd h (by decide)
  | observation o => exact base o
  | allergyIntolerance a => simp only [Resource.resourceType] at h; exact absurd h (by decide)
  | condition c => simp only [Resource.resourceType] at h; exact absurd h (by decide)
  | practitioner pr => simp only [Resource.resourceType] at h; exact absurd h (by decide)
  | other tag =>
    simp only [Resource.resourceType] at h
    subst h
    rw [show convertObservationToOBX (.other "Observation") n =
      String.intercalate "|" (obxFields {} n) from rfl]
    exact base {}

theorem numberedSegs_map_headField (conv : Resource → Nat → String) (tag : String) :
    ∀ (rs : List Resource),
      (∀ r ∈ rs, ∀ n, conv r n ≠ "" ∧ headField (conv r n) = tag) →
      ∀ i, (numberedSegs conv rs i).map headField = List.replicate rs.length tag
  | [], _, _ => rfl
  | r :: rest, h, i => by
    have hr := h r (List.mem_cons_self r rest)
    have ih := numberedSegs_map_headField conv tag rest
      (fun x hx n => h x (List.mem_cons_of_mem r hx) n) (i + 1)
    simp only [numberedSegs, if_neg (hr (i + 1)).1, List.map_cons, ih,
      (hr (i + 1)).2, List.length_cons, List.replicate_succ]

theorem numberedSegs_get? (conv : Resource → Nat → String) :
    ∀ (rs : List Resource), (∀ r ∈ rs, ∀ n, conv r n ≠ "") →
      ∀ i k, (numberedSegs conv rs i).get? k = (rs.get? k).map (fun r => conv r (i + k + 1))
  | [], _, _, _ => by simp [numberedSegs]
  | r :: rest, h, i, k => by
    have hr := h r (List.mem_cons_self r rest)
    have ih := numberedSegs_get? conv rest (fun x hx n => h x (List.mem_cons_of_mem r hx) n) (i + 1)
    cases k with
    | zero => simp [numberedSegs, if_neg (hr (i + 1))]
    | succ k =>
      simp only [numberedSegs, if_neg (hr (i + 1)), List.get?_cons_succ, ih k]
      have harith : i + 1 + k + 1 = i + (k + 1) + 1 := by omega
      rw [harith]

theorem numberedSegs_length (conv : Resource → Nat → String) :
    ∀ (rs : List Resource), (∀ r ∈ rs, ∀ n, conv r n ≠ "") →
      ∀ i, (numberedSegs conv rs i).length = rs.length
  | [], _, _ => rfl
  | r :: rest, h, i => by
    have hr := h r (List.mem_cons_self r rest)
    have ih := numberedSegs_length conv rest (fun x hx n => h x (List.mem_cons_of_mem r hx) n) (i + 1)
    simp [numberedSegs, if_neg (hr (i + 1)), ih]

theorem buildSegments_map_headField (resources : List Resource) (patient : Resource)
    (pidSegment : String) (hpid : headField pidSegment = "PID")
    (options : Options) (clock : Clock) :
    (buildSegments resources patient pidSegment options clock).map headField =
      ["MSH", "EVN", "PID"]
      ++ (if (resources.find? (fun r => r.resourceType = "Encounter")).isSome then ["PV1"]
          else [])
      ++ List.replicate
          (resources.filter (fun r => r.resourceType = "RelatedPerson")).length "NK1"
      ++ List.replicate
          (resources.filter (fun r => r.resourceType = "AllergyIntolerance")).length "AL1"
      ++ List.replicate (resources.filter (fun r => r.resourceType = "Condition")).length "DG1"
      ++ List.replicate
          (resources.filter (fun r => r.resourceType = "Observation")).length "OBX" := by
  have hNK1 := numberedSegs_map_headField convertRelatedPersonToNK1 "NK1"
    (resources.filter (fun r => r.resourceType = "RelatedPerson"))
    (fun x hx n => nk1_of_kind x (of_decide_eq_true (List.mem_filter.mp hx).2) n) 0
  have hAL1 := numberedSegs_map_headField convertAllergyIntoleranceToAL1 "AL1"
    (resources.filter (fun r => r.resourceType = "AllergyIntolerance"))
    (fun x hx n => al1_of_kind x (of_decide_eq_true (List.mem_filter.mp hx).2) n) 0
  have hDG1 := numberedSegs_map_headField convertConditionToDG1 "DG1"
    (resources.filter (fun r => r.resourceType = "Condition"))
    (fun x hx n => dg1_of_kind x (of_decide_eq_true (List.mem_filter.mp hx).2) n) 0
  have hOBX := numberedSegs_map_headField convertObservationToOBX "OBX"
    (resources.filter (fun r => r.resourceType = "Observation"))
    (fun x hx n => obx_of_kind x (of_decide_eq_true (List.mem_filter.mp hx).2) n) 0
  simp only [buildSegments, List.map_append, hNK1, hAL1, hDG1, hOBX,
    List.map_cons, List.map_nil, headField_msh, headField_evn, hpid]
  cases henc : resources.find? (fun r => r.resourceType = "Encounter") with
  | none => simp [henc]
  | some er =>
    have hk : er.resourceType = "Encounter" := of_decide_eq_true (@List.find?_some Resource _ er resources henc)
    have hpv1 := pv1_of_kind er hk (practitionersOf resources)
    simp [henc, if_neg hpv1.1, hpv1.2]

theorem convertPatientToPID_of_kind (r : Resource) (h : r.resourceType = "Patient")
    (nowISO : String) :
    ∃ s, convertPatientToPID r nowISO = .ok s ∧ headField s = "PID" := by
  cases r with
  | patient p => exact ⟨_, rfl, headField_pid p nowISO⟩
  | other tag =>
    simp only [Resource.resourceType] at h
    subst h
    exact ⟨_, rfl, headField_pid {} nowISO⟩
  | encounter e => simp only [Resource.resourceType] at h; exact absurd h (by decide)
  | relatedPerson rp => simp only [Resource.resourceType] at h; exact absurd h (by decide)
  | observation o => simp only [Resource.resourceType] at h; exact absurd h (by decide)
  | allergyIntolerance a => simp only [Resource.resourceType] at h; exact absurd h (by decide)
  | condition c => simp only [Resource.resourceType] at h; exact absurd h (by decide)
  | practitioner pr => simp only [Resource.resourceType] at h; exact absurd h (by decide)

theorem convert_list_ok (rs : List Resource) (options : Options) (clock : Clock)
    (p : Resource) (hp : rs.find? (fun r => r.resourceType = "Patient") = some p) :
    ∃ pid, convertPatientToPID p clock.pidNowISO = .ok pid ∧ headField pid = "PID" ∧
      convertFHIRToHL7Segments (.list rs) options clock =
        .ok (buildSegments rs p pid options clock) := by
  have hk : p.resourceType = "Patient" :=
    of_decide_eq_true (@List.find?_some Resource _ p rs hp)
  obtain ⟨pid, hok, hpid⟩ := convertPatientToPID_of_kind p hk clock.pidNowISO
  refine ⟨pid, hok, hpid, ?_⟩
  show (match (rs.find? (fun r => r.resourceType = "Patient")) with
        | none => Except.error "Patient resource is required for HL7 conversion"
        | some patient =>
          match convertPatientToPID patient clock.pidNowISO with
          | .error e => Except.error e
          | .ok pidSegment => .ok (buildSegments rs patient pidSegment options clock)) =
      .ok (buildSegments rs p pid options clock)
  rw [hp]
  simp only [hok]

theorem find?_isSome_of_perm (rs rs2 : List Resource) (q : Resource → Bool)
    (hperm : rs2.Perm rs) : (rs2.find? q).isSome = (rs.find? q).isSome := by
  rw [Bool.eq_iff_iff]
  simp only [List.find?_isSome]
  constructor
  · rintro ⟨x, hx, hqx⟩; exact ⟨x, hperm.mem_iff.mp hx, hqx⟩
  · rintro ⟨x, hx, hqx⟩; exact ⟨x, hperm.mem_iff.mpr hx, hqx⟩

/-- The message-type table exactly as the claim states it: status is
consulted first (Admit for arrived/in-progress, Discharge for
finished/cancelled, Register for planned, Pending-Admit for onleave),
class only as fallback on an unrecognized status, Update when no visit
record is supplied. -/
def specMessageType (visit : Option EncounterR) : MsgType :=
  match visit with
  | none => ⟨"ADT^A08", "A08"⟩
  | some v =>
    if v.status = some "arrived" ∨ v.status = some "in-progress" then ⟨"ADT^A01", "A01"⟩
    else if v.status = some "finished" ∨ v.status = some "cancelled" then ⟨"ADT^A03", "A03"⟩
    else if v.status = some "planned" then ⟨"ADT^A04", "A04"⟩
    else if v.status = some "onleave" then ⟨"ADT^A14", "A14"⟩
    else if v.cls.bind (·.code) = some "IMP" then ⟨"ADT^A01", "A01"⟩
    else ⟨"ADT^A08", "A08"⟩

/-- Claim C2: the message-type resolver, as a pure function of the
optional Visit (Encounter) record, agrees with the claim's decision table:
Admit (ADT^A01) for status arrived/in-progress, Discharge (ADT^A03) for
finished/cancelled, Register (ADT^A04) for planned, Pending-Admit
(ADT^A14) for onleave, Update (ADT^A08) when no visit record is supplied,
and on any other status falls back on the class code (Admit if inpatient
IMP, else Update) — status is always consulted before class. -/
theorem claimC2_message_type_table (visit : Option EncounterR) :
    determineMessageType (visit.map Resource.encounter) = specMessageType visit := by
  cases visit with
  | none => rfl
  | some v =>
    show determineMessageType (some (.encounter v)) = specMessageType (some v)
    simp only [determineMessageType, specMessageType]
    by_cases h1 : v.status = some "planned" <;>
      by_cases h2 : v.status = some "arrived" ∨ v.status = some "in-progress" <;>
      by_cases h3 : v.status = some "finished" ∨ v.status = some "cancelled" <;>
      by_cases h4 : v.status = some "onleave" <;>
      simp_all

/-- The canonical tag sequence of an accepted conversion of `rs`. -/
def canonicalTags (rs : List Resource) : List String :=
  ["MSH", "EVN", "PID"]
  ++ (if (rs.find? (fun r => r.resourceType = "Encounter")).isSome then ["PV1"] else [])
  ++ List.replicate (rs.filter (fun r => r.resourceType = "RelatedPerson")).length "NK1"
  ++ List.replicate (rs.filter (fun r => r.resourceType = "AllergyIntolerance")).length "AL1"
  ++ List.replicate (rs.filter (fun r => r.resourceType = "Condition")).length "DG1"
  ++ List.replicate (rs.filter (fun r => r.resourceType = "Observation")).length "OBX"

theorem convert_list_tags (rs : List Resource) (options : Options) (clock : Clock)
    (h : (rs.find? (fun r => r.resourceType = "Patient")).isSome) :
    ∃ segs, convertFHIRToHL7Segments (.list rs) options clock = .ok segs ∧
      segs.map headField = canonicalTags rs := by
  obtain ⟨p, hp⟩ := Option.isSome_iff_exists.mp h
  obtain ⟨pid, _, hpid, hsegs⟩ := convert_list_ok rs options clock p hp
  exact ⟨_, hsegs, buildSegments_map_headField rs p pid hpid options clock⟩

theorem canonicalTags_perm (rs rs2 : List Resource) (hperm : rs2.Perm rs) :
    canonicalTags rs2 = canonicalTags rs := by
  have hfilter : ∀ q : Resource → Bool, (rs2.filter q).length = (rs.filter q).length :=
    fun q => (hperm.filter q).length_eq
  simp only [canonicalTags, find?_isSome_of_perm rs rs2 _ hperm, hfilter]

/-- Claim C1: for every input collection containing a Primary Subject
(Patient) record, the conversion succeeds and the segments of the output
appear in exactly the order MSH, EVN, PID, then at most one PV1 (present
iff an Encounter record exists), then one NK1 per RelatedPerson, one AL1
per AllergyIntolerance, one DG1 per Condition and one OBX per Observation
— and this tag sequence is unchanged under any permutation of the input
collection; no segment of an absent group is emitted (each group
contributes exactly as many segments as it has source records). -/
theorem claimC1_segment_order (rs : List Resource) (options : Options) (clock : Clock)
    (h : (rs.find? (fun r => r.resourceType = "Patient")).isSome) :
    ∃ segs, convertFHIRToHL7Segments (.list rs) options clock = .ok segs ∧
      segs.map headField = canonicalTags rs ∧
      ∀ rs2 : List Resource, rs2.Perm rs →
        ∃ segs2, convertFHIRToHL7Segments (.list rs2) options clock = .ok segs2 ∧
          segs2.map headField = segs.map headField := by
  obtain ⟨segs, hok, htags⟩ := convert_list_tags rs options clock h
  refine ⟨segs, hok, htags, ?_⟩
  intro rs2 hperm
  have h2 : (rs2.find? (fun r => r.resourceType = "Patient")).isSome := by
    rw [find?_isSome_of_perm rs rs2 _ hperm]
    exact h
  obtain ⟨segs2, hok2, htags2⟩ := convert_list_tags rs2 options clock h2
  exact ⟨segs2, hok2, by rw [htags2, htags, canonicalTags_perm rs rs2 hperm]⟩

/-- Witness for C1: a concrete collection (Observation listed before the
Patient, plus an Encounter) converts with the canonical tag sequence. -/
theorem claimC1_segment_order_witness :
    ((([Resource.observation {}, Resource.patient {}, Resource.encounter {}] : List Resource).find?
        (fun r => r.resourceType = "Patient")).isSome = true) ∧
    ∃ segs, convertFHIRToHL7Segments
        (.list [Resource.observation {}, Resource.patient {}, Resource.encounter {}]) {}
        ⟨"", "", "", 0⟩ = .ok segs ∧
      segs.map headField =
        canonicalTags [Resource.observation {}, Resource.patient {}, Resource.encounter {}] ∧
      ∀ rs2 : List Resource,
        rs2.Perm [Resource.observation {}, Resource.patient {}, Resource.encounter {}] →
        ∃ segs2, convertFHIRToHL7Segments (.list rs2) {} ⟨"", "", "", 0⟩ = .ok segs2 ∧
          segs2.map headField = segs.map headField :=
  ⟨by decide, claimC1_segment_order _ {} ⟨"", "", "", 0⟩ (by decide)⟩

/-- Claim C3: every input collection with no Patient record fails with the
missing-primary-subject error and produces no output. -/
theorem claimC3_missing_patient (input : FhirInput) (options : Options) (clock : Clock)
    (hnn : input ≠ .nullInput)
    (h : ∀ r ∈ resolveResources input, r.resourceType ≠ "Patient") :
    convertFHIRToHL7 input options clock =
      .error "Patient resource is required for HL7 conversion" := by
  have hfind : (resolveResources input).find? (fun r => r.resourceType = "Patient") = none := by
    simp only [List.find?_eq_none, decide_eq_true_eq]
    exact h
  cases input with
  | nullInput => exact absurd rfl hnn
  | single r =>
    show Except.map _ (match ([r] : List Resource).find? (fun r => r.resourceType = "Patient") with
      | none => (Except.error "Patient resource is required for HL7 conversion" : Except String (List String))
      | some patient =>
        match convertPatientToPID patient clock.pidNowISO with
        | .error e => Except.error e
        | .ok pidSegment => .ok (buildSegments [r] patient pidSegment options clock)) = _
    rw [show resolveResources (.single r) = [r] from rfl] at hfind
    rw [hfind]
    rfl
  | list rs =>
    show Except.map _ (match (rs.find? (fun r => r.resourceType = "Patient")) with
      | none => (Except.error "Patient resource is required for HL7 conversion" : Except String (List String))
      | some patient =>
        match convertPatientToPID patient clock.pidNowISO with
        | .error e => Except.error e
        | .ok pidSegment => .ok (buildSegments rs patient pidSegment options clock)) = _
    rw [show resolveResources (.list rs) = rs from rfl] at hfind
    rw [hfind]
    rfl
  | bundle entry =>
    show Except.map _ (match ((resolveResources (.bundle entry)).find?
        (fun r => r.resourceType = "Patient")) with
      | none => (Except.error "Patient resource is required for HL7 conversion" : Except String (List String))
      | some patient =>
        match convertPatientToPID patient clock.pidNowISO with
        | .error e => Except.error e
        | .ok pidSegment =>
          .ok (buildSegments (resolveResources (.bundle entry)) patient pidSegment options clock)) = _
    rw [hfind]
    rfl

/-- Witness for C3: the empty collection fails with the
missing-primary-subject error. -/
theorem claimC3_missing_patient_witness :
    (FhirInput.list [] ≠ .nullInput) ∧
    (∀ r ∈ resolveResources (.list []), r.resourceType ≠ "Patient") ∧
    convertFHIRToHL7 (.list []) {} ⟨"", "", "", 0⟩ =
      .error "Patient resource is required for HL7 conversion" :=
  ⟨by decide, by simp [resolveResources],
   claimC3_missing_patient (.list []) {} ⟨"", "", "", 0⟩ (by decide) (by simp [resolveResources])⟩

/-- Claim C10: a null/undefined top-level input throws the distinct
`resource is required` error (not the missing-primary-subject error)
before any classification or segment building, producing no output. -/
theorem claimC10_null_input (options : Options) (clock : Clock) :
    convertFHIRToHL7 .nullInput options clock = .error "FHIR resource is required" ∧
    convertFHIRToHL7Segments .nullInput options clock = .error "FHIR resource is required" ∧
    ("FHIR resource is required" : String) ≠ "Patient resource is required for HL7 conversion" :=
  ⟨rfl, rfl, by decide⟩

/-- The Scenario A input: a Patient with family name DOE, given names
JOHN and MIDDLE, male sex, birth date 1980-01-15, and nothing else. -/
def scenarioAPatient : PatientR :=
  { name := some [{ family := some "DOE", given := some ["JOHN", "MIDDLE"] }],
    gender := some "male", birthDate := some "1980-01-15" }

/-- Claim C4 (Scenario A): converting exactly one Primary Subject record
with family name DOE, given names JOHN and MIDDLE, sex male, birth date
1980-01-15 and no other records yields exactly 3 segments; the
demographics segment's name field (PID-5) is `DOE^JOHN^MIDDLE^^^`, its
administrative-sex field (PID-8) is `M`, and its birth-date field (PID-7)
is `19800115`. -/
theorem claimC4_scenarioA (clock : Clock) :
    ∃ segs, convertFHIRToHL7Segments (.single (.patient scenarioAPatient)) {} clock =
        .ok segs ∧
      segs.length = 3 ∧
      (segs.get? 2).bind (fun s => (hl7Fields s).get? 5) = some "DOE^JOHN^MIDDLE^^^" ∧
      (segs.get? 2).bind (fun s => (hl7Fields s).get? 8) = some "M" ∧
      (segs.get? 2).bind (fun s => (hl7Fields s).get? 7) = some "19800115" :=
  ⟨_, rfl, rfl, rfl, rfl, rfl⟩

/-- Claim C5: an accepted conversion of a collection with N Observation
records emits exactly N observation segments, appearing as the final
block of the message, and the sequence-number field (OBX-1, the second
`|`-separated field) of the k-th emitted observation segment is the
1-based position k of its source record among the Observation records in
input order — no gaps, no reordering. -/
theorem claimC5_observation_numbering (rs : List Resource) (options : Options) (clock : Clock)
    (h : (rs.find? (fun r => r.resourceType = "Patient")).isSome) :
    ∃ segs, convertFHIRToHL7Segments (.list rs) options clock = .ok segs ∧
      (numberedSegs convertObservationToOBX
        (rs.filter (fun r => r.resourceType = "Observation")) 0) <:+ segs ∧
      (numberedSegs convertObservationToOBX
        (rs.filter (fun r => r.resourceType = "Observation")) 0).length =
        (rs.filter (fun r => r.resourceType = "Observation")).length ∧
      ∀ k ro, (rs.filter (fun r => r.resourceType = "Observation")).get? k = some ro →
        (numberedSegs convertObservationToOBX
          (rs.filter (fun r => r.resourceType = "Observation")) 0).get? k =
          some (convertObservationToOBX ro (k + 1)) ∧
        (hl7Fields (convertObservationToOBX ro (k + 1))).get? 1 = some (toString (k + 1)) := by
  obtain ⟨p, hp⟩ := Option.isSome_iff_exists.mp h
  obtain ⟨pid, _, _, hsegs⟩ := convert_list_ok rs options clock p hp
  have hobs : ∀ r ∈ rs.filter (fun r => r.resourceType = "Observation"), ∀ n,
      convertObservationToOBX r n ≠ "" :=
    fun r hr n => (obx_of_kind r (of_decide_eq_true (List.mem_filter.mp hr).2) n).1
  refine ⟨_, hsegs, ?_, numberedSegs_length _ _ hobs 0, ?_⟩
  · simp only [buildSegments]
    exact List.suffix_append _ _
  · intro k ro hk
    have hkind : ro.resourceType = "Observation" :=
      of_decide_eq_true (List.mem_filter.mp (List.get?_mem hk)).2
    constructor
    · rw [numberedSegs_get? _ _ hobs 0 k, hk]
      simp
    · have hbar : ∀ c ∈ (toString (k + 1)).data, c ≠ '|' := toString_nat_ne_bar (k + 1)
      cases ro with
      | observation o =>
        exact hl7Fields_get_one "OBX" (toString (k + 1)) _ (by decide) hbar
      | other tag =>
        simp only [Resource.resourceType] at hkind
        subst hkind
        rw [show convertObservationToOBX (.other "Observation") (k + 1) =
          String.intercalate "|" (obxFields {} (k + 1)) from rfl]
        exact hl7Fields_get_one "OBX" (toString (k + 1)) _ (by decide) hbar
      | patient p2 => simp only [Resource.resourceType] at hkind; exact absurd hkind (by decide)
      | encounter e => simp only [Resource.resourceType] at hkind; exact absurd hkind (by decide)
      | relatedPerson rp =>
        simp only [Resource.resourceType] at hkind; exact absurd hkind (by decide)
      | allergyIntolerance a =>
        simp only [Resource.resourceType] at hkind; exact absurd hkind (by decide)
      | condition c => simp only [Resource.resourceType] at hkind; exact absurd hkind (by decide)
      | practitioner pr =>
        simp only [Resource.resourceType] at hkind; exact absurd hkind (by decide)

/-- Witness for C5: a collection with a Patient and two Observations. -/
theorem claimC5_observation_numbering_witness :
    ((([Resource.observation {}, Resource.patient {},
        Resource.observation { status := some "final" }] : List Resource).find?
      (fun r => r.resourceType = "Patient")).isSome = true) ∧
    ∃ segs, convertFHIRToHL7Segments
        (.list [Resource.observation {}, Resource.patient {},
          Resource.observation { status := some "final" }]) {} ⟨"", "", "", 0⟩ = .ok segs ∧
      (numberedSegs convertObservationToOBX
        (([Resource.observation {}, Resource.patient {},
          Resource.observation { status := some "final" }] : List Resource).filter
          (fun r => r.resourceType = "Observation")) 0) <:+ segs ∧
      (numberedSegs convertObservationToOBX
        (([Resource.observation {}, Resource.patient {},
          Resource.observation { status := some "final" }] : List Resource).filter
          (fun r => r.resourceType = "Observation")) 0).length =
        (([Resource.observation {}, Resource.patient {},
          Resource.observation { status := some "final" }] : List Resource).filter
          (fun r => r.resourceType = "Observation")).length ∧
      ∀ k ro, (([Resource.observation {}, Resource.patient {},
          Resource.observation { status := some "final" }] : List Resource).filter
          (fun r => r.resourceType = "Observation")).get? k = some ro →
        (numberedSegs convertObservationToOBX
          (([Resource.observation {}, Resource.patient {},
            Resource.observation { status := some "final" }] : List Resource).filter
            (fun r => r.resourceType = "Observation")) 0).get? k =
          some (convertObservationToOBX ro (k + 1)) ∧
        (hl7Fields (convertObservationToOBX ro (k + 1))).get? 1 = some (toString (k + 1)) :=
  ⟨by decide, claimC5_observation_numbering _ {} ⟨"", "", "", 0⟩ (by decide)⟩

/-- Counterexample to C6 as stated: take the Patient record with every
optional sub-field absent (in particular `gender` absent). The
administrative-sex slot (PID-8) of the demographics segment built from it
is the non-empty default `U`, not the empty string. -/
theorem claimC6_counterexample :
    ({} : PatientR).gender = none ∧
    ∃ s, convertPatientToPID (.patient {}) "" = .ok s ∧
      (hl7Fields s).get? 8 = some "U" ∧ ("U" : String) ≠ "" :=
  ⟨rfl, _, rfl, rfl, by decide⟩

/-- Claim C6 (amended): for every record of the expected kind the segment
builder succeeds, and the extractors never fail — an absent value (or
absent required sub-path) becomes the empty string. Each segment's field
count is a constant of its builder (31 fields for the demographics
segment, 51 for visit, 32 for contact, 18 for observation, 7 for allergy,
22 for diagnosis), independent of which optional sub-fields are present.
Every field slot built from an all-absent record is the empty string
except the slots produced by closed translation tables with a non-empty
default: the set-id slot is `1` and the administrative-sex slot defaults
to `U`. -/
theorem claimC6_amended :
    (∀ (r : Resource) (nowISO : String), r.resourceType = "Patient" →
      ∃ s, convertPatientToPID r nowISO = .ok s) ∧
    (∀ (p : PatientR) (nowISO : String), (pidFields p nowISO).length = 31) ∧
    (∀ (e : EncounterR) (pr : List PractitionerR), (pv1Fields e pr).length = 51) ∧
    (∀ (rp : RelatedPersonR) (n : Nat), (nk1Fields rp n).length = 32) ∧
    (∀ (o : ObservationR) (n : Nat), (obxFields o n).length = 18) ∧
    (∀ (a : AllergyR) (n : Nat), (al1Fields a n).length = 7) ∧
    (∀ (c : ConditionR) (n : Nat), (dg1Fields c n).length = 22) ∧
    convertFHIRNameToHL7 none = "" ∧
    convertFHIRAddressToHL7 none = "" ∧
    convertFHIRIdentifierToHL7 none = "" ∧
    convertFHIRIdentifierToHL7 (some {}) = "" ∧
    convertFHIRMaritalStatusToHL7 none = "" ∧
    convertFHIRDateTimeToHL7 "" = "" ∧
    convertFHIRPractitionerToHL7 .nullArg = "" ∧
    convertFHIRNameToHL7 (some {}) = "^^^^^" ∧
    convertFHIRAddressToHL7 (some {}) = "^^^^" ∧
    (∀ nowISO : String, pidFields {} nowISO =
      ["PID", "1", "", "", "", "", "", "", "U", "", "", "", "", "", "", "", "", "", "", "",
       "", "", "", "", "", "", "", "", "", "", ""]) :=
  ⟨fun r nowISO h => (convertPatientToPID_of_kind r h nowISO).imp (fun _ hs => hs.1),
   fun _ _ => rfl, fun _ _ => rfl, fun _ _ => rfl, fun _ _ => rfl, fun _ _ => rfl,
   fun _ _ => rfl, rfl, rfl, rfl, rfl, rfl, rfl, rfl, rfl, rfl, fun _ => rfl⟩

/-- Witness for the amended C6: the demographics builder succeeds on a
concrete record of kind Patient. -/
theorem claimC6_amended_witness :
    ((Resource.patient {}).resourceType = "Patient") ∧
    (∃ s, convertPatientToPID (.patient {}) "now" = .ok s) :=
  ⟨by decide, claimC6_amended.1 (.patient {}) "now" (by decide)⟩

theorem isInfixB_iff (needle : List Char) :
    ∀ hay : List Char, isInfixB needle hay = true ↔ needle <:+: hay
  | [] => by
    simp only [isInfixB, List.isEmpty_iff, List.infix_nil]
  | c :: rest => by
    simp only [isInfixB, Bool.or_eq_true, List.isPrefixOf_iff_prefix,
      isInfixB_iff needle rest, List.infix_cons_iff]

theorem jsIncludes_iff (s sub : String) : jsIncludes s sub = true ↔ sub.data <:+: s.data :=
  isInfixB_iff sub.data s.data

theorem jsIncludes_us_ssn (sys : String) (h : jsIncludes sys "us-ssn" = true) :
    jsIncludes sys "ssn" = true := by
  rw [jsIncludes_iff] at h ⊢
  exact List.IsInfix.trans (by decide) h

theorem ssn_or_collapse (sys : String) :
    (jsIncludes sys "ssn" || jsIncludes sys "us-ssn") = jsIncludes sys "ssn" := by
  cases hs : jsIncludes sys "ssn" with
  | true => rfl
  | false =>
    cases hu : jsIncludes sys "us-ssn" with
    | true => exact absurd (jsIncludes_us_ssn sys hu) (by simp [hs])
    | false => rfl

/-- The assigning-authority derivation exactly as the claim states it:
the last path segment of the system URI, protocol prefix stripped,
trailing slash stripped; the empty string when no system is present. -/
def specAssigningAuthority : Option String → String
  | none => ""
  | some sys => stripTrailingSlash (stripProtocol ((jsSplit sys "/").getLastD ""))

/-- The type-code derivation exactly as the claim states it: the code of
the first explicit type coding when one is present, else inferred from
substrings of the system URI (`ssn` gives SS, `mrn`/`medical-record`
gives MR, `driver`/`dl` gives DL), else empty. -/
def specTypeCode (id : Identifier) : String :=
  match id.type.bind (fun t => t.coding) with
  | some (c :: _) => c.code.getD ""
  | _ =>
    match id.system with
    | none => ""
    | some sys =>
      if jsIncludes sys "ssn" then "SS"
      else if jsIncludes sys "mrn" || jsIncludes sys "medical-record" then "MR"
      else if jsIncludes sys "driver" || jsIncludes sys "dl" then "DL"
      else ""

theorem intercalate_xcn_format (v aa tc : String) :
    String.intercalate "^" [v, "", "", aa, tc, ""] = v ++ "^^^" ++ aa ++ "^" ++ tc ++ "^" := by
  apply String.ext
  show (((((v ++ "^" ++ "") ++ "^" ++ "") ++ "^" ++ aa) ++ "^" ++ tc) ++ "^" ++ "").data = _
  simp [String.data_append]

/-- Claim C7: for every identifier with a non-absent (truthy) value, the
identifier extractor returns `Value^^^AssigningAuthority^TypeCode^`, with
the assigning authority and type code derived exactly as the claim
describes them (`specAssigningAuthority` / `specTypeCode`). -/
theorem claimC7_identifier_format (id : Identifier) (v : String)
    (hv : id.value = some v) (hne : v ≠ "") :
    convertFHIRIdentifierToHL7 (some id) =
      v ++ "^^^" ++ specAssigningAuthority id.system ++ "^" ++ specTypeCode id ++ "^" := by
  have htr : jsTruthy id.value = true := by rw [hv]; simpa [jsTruthy] using hne
  have haa : (if jsTruthy id.system = true then
      stripTrailingSlash (stripProtocol ((jsSplit (id.system.getD "") "/").getLastD ""))
      else "") = specAssigningAuthority id.system := by
    cases id.system with
    | none => rfl
    | some s =>
      by_cases hs : s = ""
      · subst hs; rfl
      · simp [jsTruthy, hs, specAssigningAuthority]
  have hsysbranch : (if jsTruthy id.system = true then
        if (jsIncludes (id.system.getD "") "ssn" || jsIncludes (id.system.getD "") "us-ssn") = true
          then "SS"
        else if (jsIncludes (id.system.getD "") "mrn"
            || jsIncludes (id.system.getD "") "medical-record") = true then "MR"
        else if (jsIncludes (id.system.getD "") "driver"
            || jsIncludes (id.system.getD "") "dl") = true then "DL"
        else ""
      else "") =
      (match id.system with
       | none => ""
       | some sys =>
         if jsIncludes sys "ssn" then "SS"
         else if jsIncludes sys "mrn" || jsIncludes sys "medical-record" then "MR"
         else if jsIncludes sys "driver" || jsIncludes sys "dl" then "DL"
         else "") := by
    cases id.system with
    | none => rfl
    | some s =>
      by_cases hs : s = ""
      · subst hs; rfl
      · simp only [jsTruthy, Option.getD]
        rw [if_pos (by simpa using hs), ssn_or_collapse s]
  have htc : (match id.type.bind (fun t =>
        t.coding.bind (fun cs => cs.head?.map (fun c => c.code.getD ""))) with
      | some c => c
      | none =>
        if jsTruthy id.system = true then
          if (jsIncludes (id.system.getD "") "ssn"
              || jsIncludes (id.system.getD "") "us-ssn") = true then "SS"
          else if (jsIncludes (id.system.getD "") "mrn"
              || jsIncludes (id.system.getD "") "medical-record") = true then "MR"
          else if (jsIncludes (id.system.getD "") "driver"
              || jsIncludes (id.system.getD "") "dl") = true then "DL"
          else ""
        else "") = specTypeCode id := by
    unfold specTypeCode
    cases htype : id.type with
    | none => simpa [htype] using hsysbranch
    | some t =>
      cases hcod : t.coding with
      | none => simpa [htype, hcod] using hsysbranch
      | some cs =>
        cases cs with
        | nil => simpa [htype, hcod] using hsysbranch
        | cons c rest => simp [htype, hcod]
  show (if !jsTruthy id.value then "" else _) = _
  rw [htr]
  show String.intercalate "^" [id.value.getD "", "", "",
      (if jsTruthy id.system = true then
        stripTrailingSlash (stripProtocol ((jsSplit (id.system.getD "") "/").getLastD ""))
      else ""),
      (match id.type.bind (fun t =>
        t.coding.bind (fun cs => cs.head?.map (fun c => c.code.getD ""))) with
      | some c => c
      | none =>
        if jsTruthy id.system = true then
          if (jsIncludes (id.system.getD "") "ssn"
              || jsIncludes (id.system.getD "") "us-ssn") = true then "SS"
          else if (jsIncludes (id.system.getD "") "mrn"
              || jsIncludes (id.system.getD "") "medical-record") = true then "MR"
          else if (jsIncludes (id.system.getD "") "driver"
              || jsIncludes (id.system.getD "") "dl") = true then "DL"
          else ""
        else ""), ""] = _
  rw [haa, htc, hv]
  exact intercalate_xcn_format v (specAssigningAuthority id.system) (specTypeCode id)

/-- The concrete identifier used to witness C7. -/
def ssnWitnessIdentifier : Identifier :=
  { value := some "123-45-6789", system := some "http://hl7.org/fhir/sid/us-ssn" }

/-- Witness for C7: a concrete SSN-style identifier. -/
theorem claimC7_identifier_format_witness :
    ssnWitnessIdentifier.value = some "123-45-6789" ∧
    ("123-45-6789" : String) ≠ "" ∧
    convertFHIRIdentifierToHL7 (some ssnWitnessIdentifier) =
      "123-45-6789" ++ "^^^" ++ specAssigningAuthority ssnWitnessIdentifier.system ++ "^" ++
        specTypeCode ssnWitnessIdentifier ++ "^" :=
  ⟨rfl, by decide,
   claimC7_identifier_format ssnWitnessIdentifier "123-45-6789" rfl (by decide)⟩

/-- Claim C8: the clock/control-id collaborator (`Clock` bundles every
`new Date()` and `Math.random()` read of one call) is explicit, and two
calls of the conversion on byte-identical input with the same injected
deterministic collaborator produce byte-identical output strings;
moreover `createMSHSegment`'s message-control-id parameter overrides the
nondeterministic default construction `MSG` ++ timestamp ++ random
(which is used only when no control id is injected). -/
theorem claimC8_determinism (input : FhirInput) (options : Options) (clock1 clock2 : Clock)
    (h : clock1 = clock2) :
    convertFHIRToHL7 input options clock1 = convertFHIRToHL7 input options clock2 ∧
    (∀ (mt cid nowISO : String) (rand : Nat), cid ≠ "" →
      (mshFields mt (some cid) options nowISO rand).get? 9 = some cid) ∧
    (∀ (mt nowISO : String) (rand : Nat),
      (mshFields mt none options nowISO rand).get? 9 =
        some ("MSG" ++ isoToHL7Timestamp nowISO ++ toString rand)) := by
  refine ⟨by rw [h], ?_, ?_⟩
  · intro mt cid nowISO rand hc
    simp [mshFields, jsOr, hc]
  · intro mt nowISO rand
    simp [mshFields, jsOr]

/-- Witness for C8: two calls with the same concrete collaborator agree,
an injected control id is used verbatim, and the default is the
timestamp-plus-random construction. -/
theorem claimC8_determinism_witness :
    convertFHIRToHL7 (.single (.patient {})) {} ⟨"a", "b", "c", 1⟩ =
      convertFHIRToHL7 (.single (.patient {})) {} ⟨"a", "b", "c", 1⟩ ∧
    (("CID42" : String) ≠ "" ∧
      (mshFields "ADT^A08" (some "CID42") {} "now" 7).get? 9 = some "CID42") ∧
    (mshFields "ADT^A08" none {} "now" 7).get? 9 =
      some ("MSG" ++ isoToHL7Timestamp "now" ++ toString 7) :=
  ⟨(claimC8_determinism (.single (.patient {})) {} ⟨"a", "b", "c", 1⟩ ⟨"a", "b", "c", 1⟩ rfl).1,
   ⟨by decide,
    (claimC8_determinism (.single (.patient {})) {} ⟨"a", "b", "c", 1⟩ ⟨"a", "b", "c", 1⟩
      rfl).2.1 "ADT^A08" "CID42" "now" 7 (by decide)⟩,
   (claimC8_determinism (.single (.patient {})) {} ⟨"a", "b", "c", 1⟩ ⟨"a", "b", "c", 1⟩
     rfl).2.2 "ADT^A08" "now" 7⟩

theorem segments_append_inert (rs : List Resource) (x : Resource) (options : Options)
    (clock : Clock) (p : Resource)
    (hp : rs.find? (fun r => r.resourceType = "Patient") = some p)
    (hfindE : (rs ++ [x]).find? (fun r => r.resourceType = "Encounter") =
      rs.find? (fun r => r.resourceType = "Encounter"))
    (hRP : List.filter (fun r => r.resourceType = "RelatedPerson") [x] = [])
    (hAI : List.filter (fun r => r.resourceType = "AllergyIntolerance") [x] = [])
    (hCO : List.filter (fun r => r.resourceType = "Condition") [x] = [])
    (hOB : List.filter (fun r => r.resourceType = "Observation") [x] = [])
    (hPR : practitionersOf [x] = []) :
    convertFHIRToHL7Segments (.list (rs ++ [x])) options clock =
      convertFHIRToHL7Segments (.list rs) options clock := by
  have hfindP : (rs ++ [x]).find? (fun r => r.resourceType = "Patient") = some p := by
    rw [List.find?_append, hp]
    rfl
  obtain ⟨pid, hok, _, hsegs1⟩ := convert_list_ok rs options clock p hp
  obtain ⟨pid2, hok2, _, hsegs2⟩ := convert_list_ok (rs ++ [x]) options clock p hfindP
  have hpideq : pid2 = pid := by
    rw [hok] at hok2
    injection hok2 with h2
    exact h2.symm
  subst hpideq
  rw [hsegs1, hsegs2]
  have hpr : practitionersOf (rs ++ [x]) = practitionersOf rs := by
    unfold practitionersOf at hPR ⊢
    rw [List.filterMap_append, hPR, List.append_nil]
  simp only [buildSegments, hfindE, hpr, List.filter_append, hRP, hAI, hCO, hOB,
    List.append_nil]

/-- Claim C9: when more than one record of a singleton kind (Patient or
Encounter) is present, the conversion does not fail; the first record of
that kind in input order builds the single demographics segment (and
determines the message type / visit segment), and later records of these
kinds are silently ignored: appending a further Patient record — or a
further Encounter record when one is already present — leaves the output
byte-identical. -/
theorem claimC9_first_singleton_wins (rs : List Resource) (options : Options) (clock : Clock)
    (p : Resource) (hp : rs.find? (fun r => r.resourceType = "Patient") = some p) :
    (∃ segs pid, convertFHIRToHL7Segments (.list rs) options clock = .ok segs ∧
      convertPatientToPID p clock.pidNowISO = .ok pid ∧ segs.get? 2 = some pid) ∧
    (∀ p2 : PatientR, convertFHIRToHL7 (.list (rs ++ [.patient p2])) options clock =
      convertFHIRToHL7 (.list rs) options clock) ∧
    (∀ e2 : EncounterR, (rs.find? (fun r => r.resourceType = "Encounter")).isSome →
      convertFHIRToHL7 (.list (rs ++ [.encounter e2])) options clock =
        convertFHIRToHL7 (.list rs) options clock) := by
  refine ⟨?_, ?_, ?_⟩
  · obtain ⟨pid, hpid, _, hsegs⟩ := convert_list_ok rs options clock p hp
    exact ⟨_, pid, hsegs, hpid, rfl⟩
  · intro p2
    unfold convertFHIRToHL7
    rw [segments_append_inert rs (.patient p2) options clock p hp ?_ rfl rfl rfl rfl rfl]
    rw [List.find?_append]
    cases rs.find? (fun r => r.resourceType = "Encounter") with
    | none => rfl
    | some er => rfl
  · intro e2 hE
    obtain ⟨er, he⟩ := Option.isSome_iff_exists.mp hE
    unfold convertFHIRToHL7
    rw [segments_append_inert rs (.encounter e2) options clock p hp ?_ rfl rfl rfl rfl rfl]
    rw [List.find?_append, he]
    rfl

/-- Witness for C9: a collection already holding one Patient and one
Encounter; appending a second Patient or a second Encounter leaves the
output unchanged. -/
theorem claimC9_first_singleton_wins_witness :
    (∃ segs pid, convertFHIRToHL7Segments (.list [Resource.patient {}, Resource.encounter {}])
        {} ⟨"a", "b", "c", 0⟩ = .ok segs ∧
      convertPatientToPID (.patient {}) (Clock.pidNowISO ⟨"a", "b", "c", 0⟩) = .ok pid ∧
      segs.get? 2 = some pid) ∧
    convertFHIRToHL7 (.list ([Resource.patient {}, Resource.encounter {}] ++
        [.patient { gender := some "male" }])) {} ⟨"a", "b", "c", 0⟩ =
      convertFHIRToHL7 (.list [Resource.patient {}, Resource.encounter {}]) {}
        ⟨"a", "b", "c", 0⟩ ∧
    convertFHIRToHL7 (.list ([Resource.patient {}, Resource.encounter {}] ++
        [.encounter { status := some "finished" }])) {} ⟨"a", "b", "c", 0⟩ =
      convertFHIRToHL7 (.list [Resource.patient {}, Resource.encounter {}]) {}
        ⟨"a", "b", "c", 0⟩ :=
  let thm := claimC9_first_singleton_wins [Resource.patient {}, Resource.encounter {}] {}
    ⟨"a", "b", "c", 0⟩ (.patient {}) (by decide)
  ⟨thm.1, thm.2.1 { gender := some "male" }, thm.2.2 { status := some "finished" } (by decide)⟩
